import Mathlib

/-!
BeRTOS process scheduler (`bertos/kern/proc.c`).

A shallow embedding of the cooperative scheduler of BeRTOS: the process
control block, the ready list, process creation, the scheduler core, the
cooperative switch, process termination and the forbid/permit nesting counter.

Conventions of the embedding.

* Pointers are byte addresses in `Int`; `NULL` is `0`.  Pointer arithmetic on a
  `cpustack_t *` moves by `sizeof(cpustack_t)` bytes per element.
* The intrusive lists `ProcReadyList` and `StackFreeList` are the lists of the
  addresses of their nodes, head first.
* The memory holding process control blocks is a map from the address of a PCB
  to the record of its fields.
* The compile-time switches (`CONFIG_KERN_HEAP`, `ARCH & ARCH_EMUL`, ...) and the
  CPU description (`CPU_STACK_GROWS_UPWARD`, `sizeof(cpustack_t)`, ...) are the
  fields of `Config`; an `#if` becomes an `if` on the configuration.
* Calls to the external collaborators (allocator, context switch primitive,
  idle wait) are recorded, in order, in `State.trace`.
* The debugging aids (`TRACE`, `TRACEMSG`, `LOG_INFO`, the `ASSERT` family,
  `LIST_ASSERT_VALID`, `monitor_add`, `monitor_remove`) do not change the state
  described here and are left out.
* `proc_schedule` may wait for ever in its idle loop; the functions that call it
  return an `Option`, `none` standing for a call that never returns.
-/

namespace Bertos

/-- Compile-time configuration and CPU description used by `proc.c`. -/
structure Config where
  /-- `ARCH & ARCH_EMUL`: hosted build with emulated stacks. -/
  ARCH_EMUL : Bool
  CONFIG_KERN_HEAP : Bool
  CONFIG_KERN_MONITOR : Bool
  CONFIG_KERN_PREEMPTIVE : Bool
  CONFIG_KERN_SIGNALS : Bool
  CPU_STACK_GROWS_UPWARD : Bool
  CPU_SP_ON_EMPTY_SLOT : Bool
  /-- `sizeof(Process)` in bytes. -/
  sizeof_Process : Nat
  /-- `sizeof(cpustack_t)` in bytes. -/
  sizeof_cpustack_t : Nat
  /-- Number of bits of `size_t`. -/
  SIZE_T_BITS : Nat
  CONFIG_PROC_DEFSTACKSIZE : Nat
  CONFIG_KERN_QUANTUM : Nat
  CONFIG_KERN_STACKFILLCODE : Nat
  CPU_SAVED_REGS_CNT : Nat
  /-- Number of stack words one `CPU_PUSH_CALL_FRAME` pushes. -/
  CPU_CALL_FRAME_WORDS : Nat
  /-- The flag bit `PF_FREESTACK` of `proc_p.h`. -/
  PF_FREESTACK : Nat
  /-- Address of the static `struct Process MainProcess`. -/
  MainProcess : Int
  /-- Address of the function `proc_exit`, pushed as a return address. -/
  proc_exit_addr : Nat

/-- The fields of `struct Process` that `proc.c` reads or writes. -/
structure Process where
  /-- Saved stack pointer `stack`. -/
  stack : Int
  user_data : Nat
  stack_base : Int
  stack_size : Nat
  flags : Nat
  forbid_cnt : Int
  sig_recv : Nat
deriving DecidableEq

/-- Calls to external collaborators and stack stores, as they happen. -/
inductive Event where
  /-- `heap_alloc(size)` returned `result`. -/
  | heap_alloc (size : Nat) (result : Int)
  /-- `heap_free(mem, size)`; `size` is `none` for the one-argument call. -/
  | heap_free (mem : Int) (size : Option Nat)
  /-- `memset(base, fill, len)`. -/
  | memset (base : Int) (fill : Nat) (len : Nat)
  /-- A word was stored in the stack slot at address `slot`. -/
  | push (slot : Int)
  /-- `list_remHead(&ProcReadyList)` was attempted; `irq` tells whether
  interrupts were enabled at that moment. -/
  | remHead (irq : Bool)
  /-- `CPU_IDLE` was executed; `irq` tells whether interrupts were enabled. -/
  | idle (irq : Bool)
  /-- `asm_switch_context(&new->stack, save)`; `save_sp` is `some old` for
  `&old->stack` and `none` for the local `dummy`. -/
  | asm_switch_context (new_sp : Int) (save_sp : Option Int)
deriving DecidableEq

/-- The global variables of `proc.c`, PCB memory and the machine state the
scheduler relies on. -/
structure State where
  ProcReadyList : List Int
  CurrentProcess : Int
  Quantum : Nat
  StackFreeList : List Int
  /-- PCB memory: the record stored at each address. -/
  pcb : Int → Process
  /-- Stack pointer register of the CPU. -/
  sp : Int
  /-- Interrupt enable flag of the CPU. -/
  irq : Bool
  trace : List Event

/-- Append an event to the trace. -/
def State.emit (s : State) (e : Event) : State :=
  { s with trace := s.trace ++ [e] }

/-- Store a new record for the PCB at address `p`. -/
def State.setPcb (s : State) (p : Int) (v : Process) : State :=
  { s with pcb := fun a => if a = p then v else s.pcb a }

/-- Modelled from the spec: the macro `ROUND2` of `cfg/macros.h` is not among
the sources; it rounds `x` up to the next multiple of `pad` ("round the PCB's
own size up to the stack's natural word alignment"). -/
def ROUND2 (x pad : Nat) : Nat :=
  (x + (pad - 1)) / pad * pad

/-- Line 159:
`PROC_SIZE_WORDS = ROUND2(sizeof(Process), sizeof(cpustack_t)) / sizeof(cpustack_t)`. -/
def PROC_SIZE_WORDS (cfg : Config) : Nat :=
  ROUND2 cfg.sizeof_Process cfg.sizeof_cpustack_t / cfg.sizeof_cpustack_t

/-- Modelled from the spec: `list_remHead` of `struct/list.h` is not among the
sources; it dequeues the head of a list and yields `NULL` on an empty list. -/
def list_remHead (l : List Int) : Int × List Int :=
  match l with
  | [] => (0, [])
  | x :: xs => (x, xs)

/-- Modelled from the spec: `ADDHEAD` of `struct/list.h` is not among the
sources; it inserts a node at the head of a list. -/
def ADDHEAD (l : List Int) (n : Int) : List Int :=
  n :: l

/-- Modelled from the spec: `SCHED_ENQUEUE` of `proc_p.h` is not among the
sources; it appends a PCB to the tail of the ready queue. -/
def SCHED_ENQUEUE (proc : Int) (s : State) : State :=
  { s with ProcReadyList := s.ProcReadyList ++ [proc] }

/-- Modelled from the spec: `ATOMIC` of `cpu/irq.h` is not among the sources;
it saves the interrupt flag, masks interrupts, runs the code and restores the
flag to the saved value. -/
def ATOMIC (code : State → State) (s : State) : State :=
  let flags := s.irq
  let s1 := code { s with irq := false }
  { s1 with irq := flags }

/-- Modelled from the spec: `PROC_ATOMIC` of `proc.h` is not among the
sources; the access to the free list of emulated stacks "is itself a critical
section". -/
def PROC_ATOMIC (code : State → State) (s : State) : State :=
  ATOMIC code s

/-- Lines 108-124: `proc_init_struct(proc)`. -/
def proc_init_struct (cfg : Config) (proc : Int) (s : State) : State :=
  let s1 := if cfg.CONFIG_KERN_SIGNALS then
      s.setPcb proc { s.pcb proc with sig_recv := 0 } else s
  let s2 := if cfg.CONFIG_KERN_PREEMPTIVE then
      s1.setPcb proc { s1.pcb proc with forbid_cnt := 0 } else s1
  if cfg.CONFIG_KERN_HEAP then
    s2.setPcb proc { s2.pcb proc with flags := 0 } else s2

/-- Lines 128-146: `proc_init()`. -/
def proc_init (cfg : Config) (s : State) : State :=
  let s1 := { s with ProcReadyList := [] }
  let s2 := proc_init_struct cfg cfg.MainProcess s1
  { s2 with CurrentProcess := cfg.MainProcess }

/-- Modelled from the spec: `CPU_PUSH_WORD(proc->stack, data)` of `cpu/frame.h`
is not among the sources; it pushes one raw machine word onto a growing or
shrinking stack region.  With the stack pointer on the next free slot the word is
stored first and the pointer moved afterwards; with the pointer on the last
used slot the pointer is moved first. -/
def CPU_PUSH_WORD (cfg : Config) (proc : Int) (s : State) : State :=
  let W : Int := cfg.sizeof_cpustack_t
  let sp := (s.pcb proc).stack
  let next := if cfg.CPU_STACK_GROWS_UPWARD then sp + W else sp - W
  let slot := if cfg.CPU_SP_ON_EMPTY_SLOT then sp else next
  (s.setPcb proc { s.pcb proc with stack := next }).emit (Event.push slot)

/-- Push `n` words, one `CPU_PUSH_WORD` each. -/
def push_words (cfg : Config) (proc : Int) : Nat → State → State
  | 0, s => s
  | n + 1, s => push_words cfg proc n (CPU_PUSH_WORD cfg proc s)

/-- Modelled from the spec: `CPU_PUSH_CALL_FRAME(proc->stack, func)` of
`cpu/frame.h` is not among the sources; it pushes a return-address frame of
`CPU_CALL_FRAME_WORDS` words. -/
def CPU_PUSH_CALL_FRAME (cfg : Config) (proc : Int) (_func : Nat) (s : State) : State :=
  push_words cfg proc cfg.CPU_CALL_FRAME_WORDS s

/-- Line 193: `memset(stack_base, CONFIG_KERN_STACKFILLCODE, stack_size / sizeof(cpustack_t))`.
The call is recorded; the bytes it paints belong to the stack buffer of the
process being created. -/
def monitor_fill (cfg : Config) (stack_base : Int) (stack_size : Nat) (s : State) : State :=
  s.emit (Event.memset stack_base cfg.CONFIG_KERN_STACKFILLCODE
    (stack_size / cfg.sizeof_cpustack_t))

/-- Lines 190-241 of `proc_new_with_name`: everything after the stack has been
provided.  `free_stack` is the local variable of that name. -/
def proc_new_setup (cfg : Config) (free_stack : Bool) (entry : Nat) (data : Nat)
    (stack_size : Nat) (stack_base : Int) (s : State) : Int × State :=
  let W : Int := cfg.sizeof_cpustack_t
  let s1 := if cfg.CONFIG_KERN_MONITOR then monitor_fill cfg stack_base stack_size s else s
  -- Initialize the process control block
  let proc : Int :=
    if cfg.CPU_STACK_GROWS_UPWARD then stack_base
    else stack_base + ((stack_size / cfg.sizeof_cpustack_t : Nat) : Int) * W
      - (PROC_SIZE_WORDS cfg : Int) * W
  let stack0 : Int :=
    if cfg.CPU_STACK_GROWS_UPWARD then
      let t := stack_base + (PROC_SIZE_WORDS cfg : Int) * W
      if cfg.CPU_SP_ON_EMPTY_SLOT then t + W else t
    else
      if cfg.CPU_SP_ON_EMPTY_SLOT then proc - W else proc
  let s2 := s1.setPcb proc { s1.pcb proc with stack := stack0 }
  let s3 := proc_init_struct cfg proc s2
  let s4 := s3.setPcb proc { s3.pcb proc with user_data := data }
  let s5 :=
    if cfg.CONFIG_KERN_HEAP || cfg.CONFIG_KERN_MONITOR || cfg.ARCH_EMUL then
      let t := s4.setPcb proc { s4.pcb proc with stack_base := stack_base, stack_size := stack_size }
      if cfg.CONFIG_KERN_HEAP && free_stack then
        t.setPcb proc { t.pcb proc with flags := (t.pcb proc).flags ||| cfg.PF_FREESTACK }
      else t
    else s4
  -- Initialize process stack frame
  let s6 := CPU_PUSH_CALL_FRAME cfg proc cfg.proc_exit_addr s5
  let s7 := CPU_PUSH_CALL_FRAME cfg proc entry s6
  -- Push a clean set of CPU registers for asm_switch_context()
  let s8 := push_words cfg proc cfg.CPU_SAVED_REGS_CNT s7
  -- Add to ready list
  let s9 := ATOMIC (SCHED_ENQUEUE proc) s8
  (proc, s9)

/-- Lines 155-241: `proc_new_with_name(name, entry, data, stack_size, stack_base)`.
`heap_alloc` is the answer of the external allocator to a request of a given
size at this call (`0` for failure).  The result is the returned pointer and
the state on return. -/
def proc_new_with_name (cfg : Config) (heap_alloc : Nat → Int) (entry : Nat) (data : Nat)
    (stack_size : Nat) (stack_base : Int) (s : State) : Int × State :=
  if cfg.ARCH_EMUL then
    -- Ignore stack provided by caller and use the large enough default instead.
    let b := (list_remHead s.StackFreeList).1
    let s1 := PROC_ATOMIC (fun t => { t with StackFreeList := (list_remHead t.StackFreeList).2 }) s
    proc_new_setup cfg false entry data cfg.CONFIG_PROC_DEFSTACKSIZE b s1
  else if cfg.CONFIG_KERN_HEAP then
    -- Did the caller provide a stack for us?
    if stack_base = 0 then
      -- Did the caller specify the desired stack size?
      let size :=
        if stack_size = 0 then
          (cfg.CONFIG_PROC_DEFSTACKSIZE + cfg.sizeof_Process) % 2 ^ cfg.SIZE_T_BITS
        else stack_size
      -- Allocate stack dinamically
      let b := heap_alloc size
      let s1 := s.emit (Event.heap_alloc size b)
      if b = 0 then (0, s1)
      else proc_new_setup cfg true entry data size b s1
    else proc_new_setup cfg false entry data stack_size stack_base s
  else
    -- Stack must have been provided by the user
    proc_new_setup cfg false entry data stack_size stack_base s

/-- Modelled from the spec: `asm_switch_context(new_sp, save_sp)` is an
assembly routine that is not among the sources; it stores the handle of the
running context in `*save_sp` (`none` is the local `dummy`), loads the one
found in `*new_sp` and transfers control. -/
def asm_switch_context (new_proc : Int) (save_sp : Option Int) (s : State) : State :=
  let s1 := match save_sp with
    | some old => s.setPcb old { s.pcb old with stack := s.sp }
    | none => s
  { s1 with sp := (s1.pcb new_proc).stack,
            trace := s1.trace ++ [Event.asm_switch_context new_proc save_sp] }

/-- Line 272: `CurrentProcess = (struct Process *)list_remHead(&ProcReadyList)`. -/
def sched_dequeue (s : State) : State :=
  { s with CurrentProcess := (list_remHead s.ProcReadyList).1,
           ProcReadyList := (list_remHead s.ProcReadyList).2,
           trace := s.trace ++ [Event.remHead s.irq] }

/-- Lines 289-292, the body of the polling loop:
`IRQ_ENABLE; CPU_IDLE; MEMORY_BARRIER; IRQ_DISABLE;`.  While the CPU waits with
interrupts enabled, an interrupt handler enqueues the processes `woken`. -/
def sched_idle (woken : List Int) (s : State) : State :=
  let s1 := { s with irq := true }
  let s2 := s1.emit (Event.idle s1.irq)
  let s3 := if s2.irq then { s2 with ProcReadyList := s2.ProcReadyList ++ woken } else s2
  { s3 with irq := false }

/-- Lines 272-293: the polling loop of `proc_schedule`.  `isr` lists, for each
successive idle wait, the processes an interrupt handler makes ready during
that wait; when the list is used up nothing ever wakes the CPU again and the
loop does not finish (`none`). -/
def sched_poll : List (List Int) → State → Option State
  | [], s =>
    let s1 := sched_dequeue s
    if s1.CurrentProcess ≠ 0 then some s1 else none
  | woken :: isr, s =>
    let s1 := sched_dequeue s
    if s1.CurrentProcess ≠ 0 then some s1 else sched_poll isr (sched_idle woken s1)

/-- Lines 296-323: the tail of `proc_schedule`, after the polling loop. -/
def sched_switch (cfg : Config) (old_process : Int) (s : State) : State :=
  if s.CurrentProcess ≠ old_process then
    let s1 := if cfg.CONFIG_KERN_PREEMPTIVE then
        { s with Quantum := cfg.CONFIG_KERN_QUANTUM % 2 ^ 16 } else s
    asm_switch_context s1.CurrentProcess
      (if old_process ≠ 0 then some old_process else none) s1
  else s

/-- Lines 258-326: `proc_schedule()`. -/
def proc_schedule (cfg : Config) (isr : List (List Int)) (s : State) : Option State :=
  -- Remember old process to save its context later
  let old_process := s.CurrentProcess
  -- IRQ_SAVE_DISABLE(flags)
  let flags := s.irq
  match sched_poll isr { s with irq := false } with
  | none => none
  | some s1 =>
    -- IRQ_RESTORE(flags)
    let s2 := { s1 with irq := flags }
    some (sched_switch cfg old_process s2)

/-- Lines 334-366 of `proc_exit`: everything before the call of
`proc_schedule`. -/
def proc_exit_teardown (cfg : Config) (s : State) : State :=
  let cur := s.CurrentProcess
  let s1 :=
    if cfg.CONFIG_KERN_HEAP then
      let t :=
        if (s.pcb cur).flags &&& cfg.PF_FREESTACK ≠ 0 then
          s.emit (Event.heap_free (s.pcb cur).stack_base (some (s.pcb cur).stack_size))
        else s
      t.emit (Event.heap_free cur none)
    else s
  let s2 :=
    if cfg.ARCH_EMUL then
      -- Reinsert process stack in free list
      let node : Int := (s1.pcb cur).stack
        - ((cfg.CONFIG_PROC_DEFSTACKSIZE / cfg.sizeof_cpustack_t : Nat) : Int)
          * (cfg.sizeof_cpustack_t : Int)
      PROC_ATOMIC (fun t => { t with StackFreeList := ADDHEAD t.StackFreeList node }) s1
    else s1
  { s2 with CurrentProcess := 0 }

/-- Lines 332-369: `proc_exit()`. -/
def proc_exit (cfg : Config) (isr : List (List Int)) (s : State) : Option State :=
  proc_schedule cfg isr (proc_exit_teardown cfg s)

/-- Lines 375-380: `proc_switch()`. -/
def proc_switch (cfg : Config) (isr : List (List Int)) (s : State) : Option State :=
  proc_schedule cfg isr (ATOMIC (SCHED_ENQUEUE s.CurrentProcess) s)

/-- Lines 386-389: `proc_current()`. -/
def proc_current (s : State) : Int :=
  s.CurrentProcess

/-- Lines 416-420: `proc_forbid()`, `++CurrentProcess->forbid_cnt`. -/
def proc_forbid (s : State) : State :=
  s.setPcb s.CurrentProcess
    { s.pcb s.CurrentProcess with forbid_cnt := (s.pcb s.CurrentProcess).forbid_cnt + 1 }

/-- Lines 427-431: `proc_permit()`, `--CurrentProcess->forbid_cnt`. -/
def proc_permit (s : State) : State :=
  s.setPcb s.CurrentProcess
    { s.pcb s.CurrentProcess with forbid_cnt := (s.pcb s.CurrentProcess).forbid_cnt - 1 }

/-! ## Scenarios used to state the properties -/

/-- One way of making a process ready: the bare `SCHED_ENQUEUE(proc)` (under
`ATOMIC`, as everywhere in `proc.c`), or the creation of a process with
`proc_new_with_name`. -/
inductive Enqueue where
  | sched_enqueue (proc : Int)
  | proc_new (heap_alloc : Nat → Int) (entry data stack_size : Nat) (stack_base : Int)

/-- Perform one enqueue; the result is the process involved (for a creation,
the pointer returned) and the state afterwards. -/
def Enqueue.run (cfg : Config) : Enqueue → State → Int × State
  | Enqueue.sched_enqueue proc, s => (proc, ATOMIC (SCHED_ENQUEUE proc) s)
  | Enqueue.proc_new heap_alloc entry data stack_size stack_base, s =>
    proc_new_with_name cfg heap_alloc entry data stack_size stack_base s

/-- Perform enqueues one after the other; the processes involved, in order, and
the final state. -/
def enqueue_all (cfg : Config) : List Enqueue → State → List Int × State
  | [], s => ([], s)
  | op :: ops, s =>
    let r := op.run cfg s
    let rest := enqueue_all cfg ops r.2
    (r.1 :: rest.1, rest.2)

/-- Successive calls of `proc_schedule`, one for each element of `isrs` (the
interrupt activity during that call); the value of `CurrentProcess` at each
return, in order, and the final state. -/
def schedule_all (cfg : Config) : List (List (List Int)) → State → Option (List Int × State)
  | [], s => some ([], s)
  | isr :: isrs, s =>
    match proc_schedule cfg isr s with
    | none => none
    | some s1 =>
      match schedule_all cfg isrs s1 with
      | none => none
      | some r => some (s1.CurrentProcess :: r.1, r.2)

/-- Successive calls of `proc_switch`, each made by the process that is
current at that moment; the value of `CurrentProcess` at each return, in order,
and the final state. -/
def switch_all (cfg : Config) : List (List (List Int)) → State → Option (List Int × State)
  | [], s => some ([], s)
  | isr :: isrs, s =>
    match proc_switch cfg isr s with
    | none => none
    | some s1 =>
      match switch_all cfg isrs s1 with
      | none => none
      | some r => some (s1.CurrentProcess :: r.1, r.2)

/-- Number of calls of `asm_switch_context` in a trace. -/
def switch_count : List Event → Nat
  | [] => 0
  | Event.asm_switch_context _ _ :: t => switch_count t + 1
  | _ :: t => switch_count t

/-- The calls of `heap_free` in a trace, in order, as pairs of arguments. -/
def heap_frees : List Event → List (Int × Option Nat)
  | [] => []
  | Event.heap_free mem size :: t => (mem, size) :: heap_frees t
  | _ :: t => heap_frees t

/-- The calls of `heap_alloc` in a trace, in order, as request and answer. -/
def heap_allocs : List Event → List (Nat × Int)
  | [] => []
  | Event.heap_alloc size result :: t => (size, result) :: heap_allocs t
  | _ :: t => heap_allocs t

/-- A call of the preemption gate. -/
inductive Gate where
  | forbid
  | permit
deriving DecidableEq

/-- Perform one call of the gate. -/
def Gate.run : Gate → State → State
  | Gate.forbid, s => proc_forbid s
  | Gate.permit, s => proc_permit s

/-- Perform calls of the gate one after the other. -/
def run_gates : List Gate → State → State
  | [], s => s
  | g :: gs, s => run_gates gs (g.run s)

/-! ## Concrete configurations and states -/

/-- A dynamic-heap build for a 32-bit CPU whose stack grows downward:
`sizeof(cpustack_t) = 4`, `sizeof(Process) = 16`,
`CONFIG_PROC_DEFSTACKSIZE = 64`. -/
def cfgHeap : Config where
  ARCH_EMUL := false
  CONFIG_KERN_HEAP := true
  CONFIG_KERN_MONITOR := false
  CONFIG_KERN_PREEMPTIVE := true
  CONFIG_KERN_SIGNALS := true
  CPU_STACK_GROWS_UPWARD := false
  CPU_SP_ON_EMPTY_SLOT := false
  sizeof_Process := 16
  sizeof_cpustack_t := 4
  SIZE_T_BITS := 32
  CONFIG_PROC_DEFSTACKSIZE := 64
  CONFIG_KERN_QUANTUM := 50
  CONFIG_KERN_STACKFILLCODE := 165
  CPU_SAVED_REGS_CNT := 2
  CPU_CALL_FRAME_WORDS := 1
  PF_FREESTACK := 1
  MainProcess := 100
  proc_exit_addr := 7

/-- The hosted build with emulated stacks, otherwise like `cfgHeap`. -/
def cfgEmul : Config :=
  { cfgHeap with ARCH_EMUL := true, CONFIG_KERN_HEAP := false }

/-- A PCB whose fields are all zero. -/
def zeroProcess : Process where
  stack := 0
  user_data := 0
  stack_base := 0
  stack_size := 0
  flags := 0
  forbid_cnt := 0
  sig_recv := 0

/-- A state with no ready process, an empty pool of emulated stacks and the
process at address `100` running with interrupts enabled. -/
def state0 : State where
  ProcReadyList := []
  CurrentProcess := 100
  Quantum := 0
  StackFreeList := []
  pcb := fun _ => zeroProcess
  sp := 0
  irq := true
  trace := []

/-- An allocator that answers every request with the buffer at address `1000`. -/
def alloc1000 : Nat → Int :=
  fun _ => 1000

/-- An allocator that is out of memory. -/
def allocFail : Nat → Int :=
  fun _ => 0

/-- Like `state0`, with the processes at `5` and `6` ready, in that order. -/
def state56 : State :=
  { state0 with ProcReadyList := [5, 6] }

/-- Make `5` ready with `SCHED_ENQUEUE`, then create a process on the heap. -/
def enqueueTwo : List Enqueue :=
  [Enqueue.sched_enqueue 5, Enqueue.proc_new alloc1000 1 2 0 0]

/-- Like `state0`, with the running process itself at the head of the ready
queue. -/
def stateSelf : State :=
  { state0 with ProcReadyList := [100] }

/-- Number of calls of `proc_forbid` in a sequence of gate calls. -/
def forbid_calls (gs : List Gate) : Nat :=
  gs.count Gate.forbid

/-- Number of calls of `proc_permit` in a sequence of gate calls. -/
def permit_calls (gs : List Gate) : Nat :=
  gs.count Gate.permit

/-- An interrupt script during which no handler makes any process ready. -/
def quiet (isr : List (List Int)) : Prop :=
  ∀ woken ∈ isr, woken = []

/-- The states in which an operation of the scheduler returns, starting from
`proc_init`, when no interrupt handler touches the ready queue.  A creation
that returns a process was given a fresh stack buffer: the PCB carved out of it
is neither the running process nor one of the ready processes. -/
inductive Reachable (cfg : Config) : State → Prop where
  | proc_init (s0 : State) : Reachable cfg (proc_init cfg s0)
  | proc_new (s : State) (heap_alloc : Nat → Int) (entry data stack_size : Nat)
      (stack_base : Int) :
      Reachable cfg s →
      ((proc_new_with_name cfg heap_alloc entry data stack_size stack_base s).1 ≠ 0 →
        (proc_new_with_name cfg heap_alloc entry data stack_size stack_base s).1
            ≠ s.CurrentProcess ∧
          (proc_new_with_name cfg heap_alloc entry data stack_size stack_base s).1
            ∉ s.ProcReadyList) →
      Reachable cfg (proc_new_with_name cfg heap_alloc entry data stack_size stack_base s).2
  | proc_switch (s s1 : State) (isr : List (List Int)) :
      Reachable cfg s → quiet isr → proc_switch cfg isr s = some s1 → Reachable cfg s1
  | proc_schedule (s s1 : State) (isr : List (List Int)) :
      Reachable cfg s → quiet isr → proc_schedule cfg isr s = some s1 → Reachable cfg s1
  | proc_exit (s s1 : State) (isr : List (List Int)) :
      Reachable cfg s → quiet isr → proc_exit cfg isr s = some s1 → Reachable cfg s1

/-- The invariant carried along: the running process is a process, it is not
in the ready queue, and no process is in the ready queue twice. -/
def sched_inv (s : State) : Prop :=
  s.CurrentProcess ≠ 0 ∧ s.CurrentProcess ∉ s.ProcReadyList ∧
    (s.ProcReadyList.filter (fun p => decide (p ≠ 0))).Nodup

/-- Like `state0` in the hosted build, with one emulated stack, at address
`5000`, in the pool. -/
def statePool : State :=
  { state0 with StackFreeList := [5000] }

/-- The stack slots written by `CPU_PUSH_WORD` in a trace, in order. -/
def pushed_slots : List Event → List Int
  | [] => []
  | Event.push slot :: t => slot :: pushed_slots t
  | _ :: t => pushed_slots t

/-- The slots that `n` successive `CPU_PUSH_WORD` write when the stack pointer
starts at `sp`. -/
def push_list (cfg : Config) : Int → Nat → List Int
  | _, 0 => []
  | sp, n + 1 =>
    let W : Int := cfg.sizeof_cpustack_t
    let next := if cfg.CPU_STACK_GROWS_UPWARD then sp + W else sp - W
    let slot := if cfg.CPU_SP_ON_EMPTY_SLOT then sp else next
    slot :: push_list cfg next n

/-- Lines 197-210: the stack pointer `proc->stack` that `proc_new_with_name`
stores in the PCB before it pushes the initial frame. -/
def initial_stack (cfg : Config) (stack_size : Nat) (stack_base : Int) : Int :=
  let W : Int := cfg.sizeof_cpustack_t
  if cfg.CPU_STACK_GROWS_UPWARD then
    let t := stack_base + (PROC_SIZE_WORDS cfg : Int) * W
    if cfg.CPU_SP_ON_EMPTY_SLOT then t + W else t
  else
    let proc := stack_base + ((stack_size / cfg.sizeof_cpustack_t : Nat) : Int) * W
      - (PROC_SIZE_WORDS cfg : Int) * W
    if cfg.CPU_SP_ON_EMPTY_SLOT then proc - W else proc

/-- Number of words of the initial frame (lines 225-230): two call frames and
the saved registers. -/
def initial_frame_words (cfg : Config) : Nat :=
  cfg.CPU_CALL_FRAME_WORDS + cfg.CPU_CALL_FRAME_WORDS + cfg.CPU_SAVED_REGS_CNT

/-- The trace of `n` rounds of the polling loop that find no process: a
dequeue attempt with interrupts masked, then an idle wait with interrupts
enabled. -/
def idle_rounds : Nat → List Event
  | 0 => []
  | n + 1 => Event.remHead false :: Event.idle true :: idle_rounds n

/-- A call made by whichever process is running: a cooperative switch, a direct
call of the scheduler, or a call of the preemption gate. -/
inductive SchedOp where
  | proc_switch (isr : List (List Int))
  | proc_schedule (isr : List (List Int))
  | proc_forbid
  | proc_permit

/-- Perform one call. -/
def SchedOp.run (cfg : Config) : SchedOp → State → Option State
  | SchedOp.proc_switch isr, s => Bertos.proc_switch cfg isr s
  | SchedOp.proc_schedule isr, s => Bertos.proc_schedule cfg isr s
  | SchedOp.proc_forbid, s => some (Bertos.proc_forbid s)
  | SchedOp.proc_permit, s => some (Bertos.proc_permit s)

/-- Perform calls one after the other. -/
def run_sched (cfg : Config) : List SchedOp → State → Option State
  | [], s => some s
  | op :: ops, s =>
    match op.run cfg s with
    | none => none
    | some s1 => run_sched cfg ops s1

/-- Whether a call is a call of the preemption gate. -/
def SchedOp.isGate : SchedOp → Bool
  | SchedOp.proc_forbid => true
  | SchedOp.proc_permit => true
  | _ => false

/-- In the run of `ops` from `s`, every call of the gate is made while a
process other than `a` is running. -/
def gate_calls_by_others (cfg : Config) (a : Int) : List SchedOp → State → Bool
  | [], _ => true
  | op :: ops, s =>
    (!op.isGate || decide (s.CurrentProcess ≠ a)) &&
      match op.run cfg s with
      | none => true
      | some s1 => gate_calls_by_others cfg a ops s1

/-- Process `100` yields to `5`, which calls `proc_forbid` and yields; `6` runs
and yields; `100` runs again. -/
def roundOfYields : List SchedOp :=
  [SchedOp.proc_switch [], SchedOp.proc_forbid, SchedOp.proc_switch [], SchedOp.proc_switch []]

/-- Like `cfgHeap`, with a PCB of 18 bytes, which is not a whole number of
stack words. -/
def cfgOdd : Config :=
  { cfgHeap with sizeof_Process := 18 }

/-- Lines 272-293 once more: the state in which the polling loop of
`proc_schedule` stands when it exits or, when the interrupt script is used up
before that, after its last failed dequeue attempt (from there the CPU waits
for ever).  The loop has found a process exactly when `CurrentProcess` is not
`NULL` in that state. -/
def sched_poll_run : List (List Int) → State → State
  | [], s => sched_dequeue s
  | woken :: isr, s =>
    let s1 := sched_dequeue s
    if s1.CurrentProcess ≠ 0 then s1 else sched_poll_run isr (sched_idle woken s1)

/-! ## Basic facts about the embedding -/

@[simp] theorem emit_ProcReadyList (s : State) (e : Event) :
    (s.emit e).ProcReadyList = s.ProcReadyList := rfl

@[simp] theorem emit_CurrentProcess (s : State) (e : Event) :
    (s.emit e).CurrentProcess = s.CurrentProcess := rfl

@[simp] theorem emit_pcb (s : State) (e : Event) : (s.emit e).pcb = s.pcb := rfl

@[simp] theorem emit_trace (s : State) (e : Event) : (s.emit e).trace = s.trace ++ [e] := rfl

@[simp] theorem emit_irq (s : State) (e : Event) : (s.emit e).irq = s.irq := rfl

@[simp] theorem emit_sp (s : State) (e : Event) : (s.emit e).sp = s.sp := rfl

@[simp] theorem emit_StackFreeList (s : State) (e : Event) :
    (s.emit e).StackFreeList = s.StackFreeList := rfl

@[simp] theorem emit_Quantum (s : State) (e : Event) : (s.emit e).Quantum = s.Quantum := rfl

@[simp] theorem setPcb_ProcReadyList (s : State) (p : Int) (v : Process) :
    (s.setPcb p v).ProcReadyList = s.ProcReadyList := rfl

@[simp] theorem setPcb_CurrentProcess (s : State) (p : Int) (v : Process) :
    (s.setPcb p v).CurrentProcess = s.CurrentProcess := rfl

@[simp] theorem setPcb_trace (s : State) (p : Int) (v : Process) :
    (s.setPcb p v).trace = s.trace := rfl

@[simp] theorem setPcb_irq (s : State) (p : Int) (v : Process) :
    (s.setPcb p v).irq = s.irq := rfl

@[simp] theorem setPcb_sp (s : State) (p : Int) (v : Process) :
    (s.setPcb p v).sp = s.sp := rfl

@[simp] theorem setPcb_StackFreeList (s : State) (p : Int) (v : Process) :
    (s.setPcb p v).StackFreeList = s.StackFreeList := rfl

@[simp] theorem setPcb_Quantum (s : State) (p : Int) (v : Process) :
    (s.setPcb p v).Quantum = s.Quantum := rfl

@[simp] theorem setPcb_pcb_same (s : State) (p : Int) (v : Process) :
    (s.setPcb p v).pcb p = v := by
  simp [State.setPcb]

theorem setPcb_pcb_other (s : State) (p a : Int) (v : Process) (h : a ≠ p) :
    (s.setPcb p v).pcb a = s.pcb a := by
  simp [State.setPcb, h]

theorem proc_init_struct_frame (cfg : Config) (proc : Int) (s : State) :
    (proc_init_struct cfg proc s).ProcReadyList = s.ProcReadyList ∧
    (proc_init_struct cfg proc s).CurrentProcess = s.CurrentProcess ∧
    (proc_init_struct cfg proc s).trace = s.trace ∧
    (proc_init_struct cfg proc s).irq = s.irq ∧
    (proc_init_struct cfg proc s).sp = s.sp ∧
    (proc_init_struct cfg proc s).StackFreeList = s.StackFreeList ∧
    (proc_init_struct cfg proc s).Quantum = s.Quantum := by
  unfold proc_init_struct
  cases cfg.CONFIG_KERN_SIGNALS <;> cases cfg.CONFIG_KERN_PREEMPTIVE <;>
    cases cfg.CONFIG_KERN_HEAP <;> simp

theorem CPU_PUSH_WORD_frame (cfg : Config) (proc : Int) (s : State) :
    (CPU_PUSH_WORD cfg proc s).ProcReadyList = s.ProcReadyList ∧
    (CPU_PUSH_WORD cfg proc s).CurrentProcess = s.CurrentProcess ∧
    (CPU_PUSH_WORD cfg proc s).irq = s.irq ∧
    (CPU_PUSH_WORD cfg proc s).sp = s.sp ∧
    (CPU_PUSH_WORD cfg proc s).StackFreeList = s.StackFreeList ∧
    (CPU_PUSH_WORD cfg proc s).Quantum = s.Quantum := by
  simp [CPU_PUSH_WORD]

theorem push_words_frame (cfg : Config) (proc : Int) (n : Nat) (s : State) :
    (push_words cfg proc n s).ProcReadyList = s.ProcReadyList ∧
    (push_words cfg proc n s).CurrentProcess = s.CurrentProcess ∧
    (push_words cfg proc n s).irq = s.irq ∧
    (push_words cfg proc n s).sp = s.sp ∧
    (push_words cfg proc n s).StackFreeList = s.StackFreeList ∧
    (push_words cfg proc n s).Quantum = s.Quantum := by
  induction n generalizing s with
  | zero => simp [push_words]
  | succ n ih =>
    have h := ih (CPU_PUSH_WORD cfg proc s)
    have h1 := CPU_PUSH_WORD_frame cfg proc s
    simp only [push_words]
    refine ⟨?_, ?_, ?_, ?_, ?_, ?_⟩
    · rw [h.1, h1.1]
    · rw [h.2.1, h1.2.1]
    · rw [h.2.2.1, h1.2.2.1]
    · rw [h.2.2.2.1, h1.2.2.2.1]
    · rw [h.2.2.2.2.1, h1.2.2.2.2.1]
    · rw [h.2.2.2.2.2, h1.2.2.2.2.2]

/-- The address at which `proc_new_with_name` places the PCB (lines 197-210). -/
theorem proc_new_setup_fst (cfg : Config) (free_stack : Bool) (entry data stack_size : Nat)
    (stack_base : Int) (s : State) :
    (proc_new_setup cfg free_stack entry data stack_size stack_base s).1 =
      if cfg.CPU_STACK_GROWS_UPWARD then stack_base
      else stack_base
        + ((stack_size / cfg.sizeof_cpustack_t : Nat) : Int) * (cfg.sizeof_cpustack_t : Int)
        - (PROC_SIZE_WORDS cfg : Int) * (cfg.sizeof_cpustack_t : Int) := rfl

theorem proc_new_setup_frame (cfg : Config) (free_stack : Bool) (entry data stack_size : Nat)
    (stack_base : Int) (s : State) :
    (proc_new_setup cfg free_stack entry data stack_size stack_base s).2.ProcReadyList =
      s.ProcReadyList ++ [(proc_new_setup cfg free_stack entry data stack_size stack_base s).1] ∧
    (proc_new_setup cfg free_stack entry data stack_size stack_base s).2.CurrentProcess =
      s.CurrentProcess := by
  simp only [proc_new_setup, ATOMIC, SCHED_ENQUEUE, CPU_PUSH_CALL_FRAME]
  simp only [(push_words_frame _ _ _ _).1, (push_words_frame _ _ _ _).2.1]
  cases cfg.CONFIG_KERN_HEAP <;> cases cfg.CONFIG_KERN_MONITOR <;> cases cfg.ARCH_EMUL <;>
    cases free_stack <;>
    simp [(proc_init_struct_frame _ _ _).1, (proc_init_struct_frame _ _ _).2.1, monitor_fill]

theorem proc_new_emul (cfg : Config) (heap_alloc : Nat → Int) (entry data stack_size : Nat)
    (stack_base : Int) (s : State) (hemul : cfg.ARCH_EMUL = true) :
    proc_new_with_name cfg heap_alloc entry data stack_size stack_base s =
      proc_new_setup cfg false entry data cfg.CONFIG_PROC_DEFSTACKSIZE
        (list_remHead s.StackFreeList).1
        (PROC_ATOMIC (fun t => { t with StackFreeList := (list_remHead t.StackFreeList).2 }) s) := by
  simp [proc_new_with_name, hemul]

theorem proc_new_heap_fail (cfg : Config) (heap_alloc : Nat → Int) (entry data stack_size : Nat)
    (s : State) (hemul : cfg.ARCH_EMUL = false) (hheap : cfg.CONFIG_KERN_HEAP = true)
    (hfail : heap_alloc (if stack_size = 0 then
      (cfg.CONFIG_PROC_DEFSTACKSIZE + cfg.sizeof_Process) % 2 ^ cfg.SIZE_T_BITS
      else stack_size) = 0) :
    proc_new_with_name cfg heap_alloc entry data stack_size 0 s =
      (0, s.emit (Event.heap_alloc (if stack_size = 0 then
        (cfg.CONFIG_PROC_DEFSTACKSIZE + cfg.sizeof_Process) % 2 ^ cfg.SIZE_T_BITS
        else stack_size) 0)) := by
  simp [proc_new_with_name, hemul, hheap, hfail]

theorem proc_new_heap_ok (cfg : Config) (heap_alloc : Nat → Int) (entry data stack_size : Nat)
    (s : State) (hemul : cfg.ARCH_EMUL = false) (hheap : cfg.CONFIG_KERN_HEAP = true)
    (hok : heap_alloc (if stack_size = 0 then
      (cfg.CONFIG_PROC_DEFSTACKSIZE + cfg.sizeof_Process) % 2 ^ cfg.SIZE_T_BITS
      else stack_size) ≠ 0) :
    proc_new_with_name cfg heap_alloc entry data stack_size 0 s =
      proc_new_setup cfg true entry data
        (if stack_size = 0 then
          (cfg.CONFIG_PROC_DEFSTACKSIZE + cfg.sizeof_Process) % 2 ^ cfg.SIZE_T_BITS
          else stack_size)
        (heap_alloc (if stack_size = 0 then
          (cfg.CONFIG_PROC_DEFSTACKSIZE + cfg.sizeof_Process) % 2 ^ cfg.SIZE_T_BITS
          else stack_size))
        (s.emit (Event.heap_alloc (if stack_size = 0 then
          (cfg.CONFIG_PROC_DEFSTACKSIZE + cfg.sizeof_Process) % 2 ^ cfg.SIZE_T_BITS
          else stack_size)
          (heap_alloc (if stack_size = 0 then
            (cfg.CONFIG_PROC_DEFSTACKSIZE + cfg.sizeof_Process) % 2 ^ cfg.SIZE_T_BITS
            else stack_size)))) := by
  simp [proc_new_with_name, hemul, hheap, hok]

theorem proc_new_caller_stack (cfg : Config) (heap_alloc : Nat → Int)
    (entry data stack_size : Nat) (stack_base : Int) (s : State)
    (hemul : cfg.ARCH_EMUL = false)
    (hb : cfg.CONFIG_KERN_HEAP = false ∨ stack_base ≠ 0) :
    proc_new_with_name cfg heap_alloc entry data stack_size stack_base s =
      proc_new_setup cfg false entry data stack_size stack_base s := by
  rcases hb with hb | hb
  · simp [proc_new_with_name, hemul, hb]
  · simp [proc_new_with_name, hemul, hb]

/-- The four ways through the stack provisioning of `proc_new_with_name`. -/
theorem proc_new_cases (cfg : Config) (heap_alloc : Nat → Int) (entry data stack_size : Nat)
    (stack_base : Int) (s : State) :
    (∃ size b, proc_new_with_name cfg heap_alloc entry data stack_size stack_base s =
      (0, s.emit (Event.heap_alloc size b))) ∨
    (∃ free_stack size b t, t.ProcReadyList = s.ProcReadyList ∧
      t.CurrentProcess = s.CurrentProcess ∧
      proc_new_with_name cfg heap_alloc entry data stack_size stack_base s =
        proc_new_setup cfg free_stack entry data size b t) := by
  cases hemul : cfg.ARCH_EMUL
  · by_cases hb : cfg.CONFIG_KERN_HEAP = false ∨ stack_base ≠ 0
    · exact Or.inr ⟨false, stack_size, stack_base, s, rfl, rfl,
        proc_new_caller_stack cfg heap_alloc entry data stack_size stack_base s hemul hb⟩
    · simp only [not_or, Bool.not_eq_false, not_not] at hb
      obtain ⟨hheap, hz⟩ := hb
      subst hz
      by_cases hfail : heap_alloc (if stack_size = 0 then
          (cfg.CONFIG_PROC_DEFSTACKSIZE + cfg.sizeof_Process) % 2 ^ cfg.SIZE_T_BITS
          else stack_size) = 0
      · exact Or.inl ⟨_, _, proc_new_heap_fail cfg heap_alloc entry data stack_size s
          hemul hheap hfail⟩
      · refine Or.inr ⟨true, _, _, _, ?_, ?_,
          proc_new_heap_ok cfg heap_alloc entry data stack_size s hemul hheap hfail⟩ <;> rfl
  · refine Or.inr ⟨false, _, _, _, ?_, ?_,
      proc_new_emul cfg heap_alloc entry data stack_size stack_base s hemul⟩ <;> rfl

theorem proc_new_with_name_CurrentProcess (cfg : Config) (heap_alloc : Nat → Int)
    (entry data stack_size : Nat) (stack_base : Int) (s : State) :
    (proc_new_with_name cfg heap_alloc entry data stack_size stack_base s).2.CurrentProcess =
      s.CurrentProcess := by
  rcases proc_new_cases cfg heap_alloc entry data stack_size stack_base s with
    ⟨size, b, h⟩ | ⟨f, size, b, t, _, ht, h⟩
  · rw [h]; rfl
  · rw [h, (proc_new_setup_frame _ _ _ _ _ _ _).2, ht]

/-- A creation that returns a process has appended it to the ready queue. -/
theorem proc_new_with_name_enqueues (cfg : Config) (heap_alloc : Nat → Int)
    (entry data stack_size : Nat) (stack_base : Int) (s : State)
    (hsome : (proc_new_with_name cfg heap_alloc entry data stack_size stack_base s).1 ≠ 0) :
    (proc_new_with_name cfg heap_alloc entry data stack_size stack_base s).2.ProcReadyList =
      s.ProcReadyList ++
        [(proc_new_with_name cfg heap_alloc entry data stack_size stack_base s).1] := by
  rcases proc_new_cases cfg heap_alloc entry data stack_size stack_base s with
    ⟨size, b, h⟩ | ⟨f, size, b, t, ht, _, h⟩
  · rw [h] at hsome; exact absurd rfl hsome
  · rw [h, (proc_new_setup_frame _ _ _ _ _ _ _).1, ht]

/-! ## The scheduler core -/

theorem sched_poll_head (isr : List (List Int)) (s : State) (p : Int) (q : List Int)
    (hq : s.ProcReadyList = p :: q) (hp : p ≠ 0) :
    sched_poll isr s = some (sched_dequeue s) := by
  cases isr <;> simp [sched_poll, sched_dequeue, list_remHead, hq, hp]

theorem asm_switch_context_frame (new_proc : Int) (save_sp : Option Int) (s : State) :
    (asm_switch_context new_proc save_sp s).ProcReadyList = s.ProcReadyList ∧
    (asm_switch_context new_proc save_sp s).CurrentProcess = s.CurrentProcess ∧
    (asm_switch_context new_proc save_sp s).irq = s.irq ∧
    (asm_switch_context new_proc save_sp s).StackFreeList = s.StackFreeList ∧
    (asm_switch_context new_proc save_sp s).Quantum = s.Quantum ∧
    (asm_switch_context new_proc save_sp s).trace =
      s.trace ++ [Event.asm_switch_context new_proc save_sp] := by
  cases save_sp <;> simp [asm_switch_context]

theorem sched_switch_frame (cfg : Config) (old_process : Int) (s : State) :
    (sched_switch cfg old_process s).ProcReadyList = s.ProcReadyList ∧
    (sched_switch cfg old_process s).CurrentProcess = s.CurrentProcess ∧
    (sched_switch cfg old_process s).irq = s.irq ∧
    (sched_switch cfg old_process s).StackFreeList = s.StackFreeList := by
  unfold sched_switch
  split
  · cases cfg.CONFIG_KERN_PREEMPTIVE <;> simp [asm_switch_context_frame]
  · simp

/-- With a process at the head of the ready queue, `proc_schedule` returns at
once: it dequeues that process, restores the interrupt flag and switches. -/
theorem proc_schedule_head (cfg : Config) (isr : List (List Int)) (s : State) (p : Int)
    (q : List Int) (hq : s.ProcReadyList = p :: q) (hp : p ≠ 0) :
    proc_schedule cfg isr s =
      some (sched_switch cfg s.CurrentProcess
        { sched_dequeue { s with irq := false } with irq := s.irq }) := by
  unfold proc_schedule
  simp only
  rw [sched_poll_head isr { s with irq := false } p q hq hp]

theorem proc_schedule_head_result (cfg : Config) (isr : List (List Int)) (s : State) (p : Int)
    (q : List Int) (hq : s.ProcReadyList = p :: q) (hp : p ≠ 0) :
    ∃ s1, proc_schedule cfg isr s = some s1 ∧ s1.CurrentProcess = p ∧ s1.ProcReadyList = q := by
  refine ⟨_, proc_schedule_head cfg isr s p q hq hp, ?_, ?_⟩
  · rw [(sched_switch_frame _ _ _).2.1]
    simp [sched_dequeue, list_remHead, hq]
  · rw [(sched_switch_frame _ _ _).1]
    simp [sched_dequeue, list_remHead, hq]

theorem enqueue_run_queue (cfg : Config) (op : Enqueue) (s : State)
    (hsome : (op.run cfg s).1 ≠ 0) :
    (op.run cfg s).2.ProcReadyList = s.ProcReadyList ++ [(op.run cfg s).1] := by
  cases op with
  | sched_enqueue proc => rfl
  | proc_new heap_alloc entry data stack_size stack_base =>
    exact proc_new_with_name_enqueues cfg heap_alloc entry data stack_size stack_base s hsome

theorem enqueue_all_queue (cfg : Config) (ops : List Enqueue) (s : State)
    (hvalid : ∀ p ∈ (enqueue_all cfg ops s).1, p ≠ 0) :
    (enqueue_all cfg ops s).2.ProcReadyList = s.ProcReadyList ++ (enqueue_all cfg ops s).1 := by
  induction ops generalizing s with
  | nil => simp [enqueue_all]
  | cons op ops ih =>
    simp only [enqueue_all] at hvalid ⊢
    have h1 : (op.run cfg s).1 ≠ 0 := hvalid _ (List.mem_cons_self _ _)
    rw [ih (op.run cfg s).2 (fun p hp => hvalid p (List.mem_cons_of_mem _ hp)),
      enqueue_run_queue cfg op s h1]
    simp

theorem enqueue_all_length (cfg : Config) (ops : List Enqueue) (s : State) :
    (enqueue_all cfg ops s).1.length = ops.length := by
  induction ops generalizing s with
  | nil => rfl
  | cons op ops ih => simp [enqueue_all, ih]

theorem schedule_all_queue (cfg : Config) (ps : List Int) (isrs : List (List (List Int)))
    (s : State) (hq : s.ProcReadyList = ps) (hvalid : ∀ p ∈ ps, p ≠ 0)
    (hlen : isrs.length = ps.length) :
    ∃ s1, schedule_all cfg isrs s = some (ps, s1) ∧ s1.ProcReadyList = [] := by
  induction ps generalizing s isrs with
  | nil =>
    cases isrs with
    | nil => exact ⟨s, rfl, hq⟩
    | cons _ _ => simp at hlen
  | cons p ps ih =>
    cases isrs with
    | nil => simp at hlen
    | cons isr isrs =>
      obtain ⟨s1, h1, hc, hq1⟩ :=
        proc_schedule_head_result cfg isr s p ps hq (hvalid p (List.mem_cons_self _ _))
      obtain ⟨s2, h2, hq2⟩ := ih isrs s1 hq1
        (fun x hx => hvalid x (List.mem_cons_of_mem _ hx)) (by simpa using hlen)
      exact ⟨s2, by simp [schedule_all, h1, h2, hc], hq2⟩

/-- **C1** (ready-queue FIFO).  Start from any state whose ready queue is empty
and make processes `P1 .. PN` ready in that order, each either by
`SCHED_ENQUEUE` or by a `proc_new_with_name` that returns it (every `Pi` is a
process, that is a non-`NULL` pointer).  Then `N` successive calls of
`proc_schedule` all return, whatever the interrupt activity, and the values of
`CurrentProcess` after them are `P1, P2, .., PN` in exactly that order; the
ready queue is empty again at the end. -/
theorem ready_queue_fifo (cfg : Config) (s : State) (ops : List Enqueue)
    (isrs : List (List (List Int)))
    (hempty : s.ProcReadyList = [])
    (hvalid : ∀ p ∈ (enqueue_all cfg ops s).1, p ≠ 0)
    (hN : isrs.length = ops.length) :
    ∃ s1, schedule_all cfg isrs (enqueue_all cfg ops s).2
        = some ((enqueue_all cfg ops s).1, s1) ∧
      s1.ProcReadyList = [] := by
  apply schedule_all_queue cfg _ isrs _ _ hvalid
  · rw [hN, enqueue_all_length]
  · rw [enqueue_all_queue cfg ops s hvalid, hempty]
    simp

/-! ## Cooperative switch -/

/-- One `proc_switch` by a current process `c` when `p` heads the ready queue. -/
theorem proc_switch_head (cfg : Config) (isr : List (List Int)) (s : State) (p : Int)
    (q : List Int) (hq : s.ProcReadyList = p :: q) (hp : p ≠ 0) :
    ∃ s1, proc_switch cfg isr s = some s1 ∧ s1.CurrentProcess = p ∧
      s1.ProcReadyList = q ++ [s.CurrentProcess] := by
  unfold proc_switch
  exact proc_schedule_head_result cfg isr _ p (q ++ [s.CurrentProcess])
    (by simp [ATOMIC, SCHED_ENQUEUE, hq]) hp

/-- One `proc_switch` by a current process `c` when the ready queue is empty. -/
theorem proc_switch_alone (cfg : Config) (isr : List (List Int)) (s : State)
    (hq : s.ProcReadyList = []) (hc : s.CurrentProcess ≠ 0) :
    ∃ s1, proc_switch cfg isr s = some s1 ∧ s1.CurrentProcess = s.CurrentProcess ∧
      s1.ProcReadyList = [] := by
  unfold proc_switch
  exact proc_schedule_head_result cfg isr _ s.CurrentProcess []
    (by simp [ATOMIC, SCHED_ENQUEUE, hq]) hc

/-- Yields by the processes `q` at the head of the ready queue, one after the
other: they are selected in order and queue up behind the rest. -/
theorem switch_all_prefix (cfg : Config) (q : List Int) (isrs : List (List (List Int)))
    (rest : List Int) (s : State)
    (hq : s.ProcReadyList = q ++ rest) (hvalid : ∀ p ∈ q, p ≠ 0)
    (hlen : isrs.length = q.length) :
    ∃ s1, switch_all cfg isrs s = some (q, s1) ∧
      s1.CurrentProcess = (s.CurrentProcess :: q).getLast (List.cons_ne_nil _ _) ∧
      s1.ProcReadyList = rest ++ (s.CurrentProcess :: q).dropLast := by
  induction q generalizing s isrs rest with
  | nil =>
    cases isrs with
    | nil => exact ⟨s, rfl, rfl, by simpa using hq⟩
    | cons _ _ => simp at hlen
  | cons p q ih =>
    cases isrs with
    | nil => simp at hlen
    | cons isr isrs =>
      obtain ⟨s1, h1, hc1, hq1⟩ := proc_switch_head cfg isr s p (q ++ rest)
        (by simpa using hq) (hvalid p (List.mem_cons_self _ _))
      obtain ⟨s2, h2, hc2, hq2⟩ := ih isrs (rest ++ [s.CurrentProcess]) s1
        (by simp [hq1]) (fun x hx => hvalid x (List.mem_cons_of_mem _ hx))
        (by simpa using hlen)
      refine ⟨s2, by simp [switch_all, h1, h2, hc1], ?_, ?_⟩
      · rw [hc2, hc1]; simp [List.getLast_cons]
      · rw [hq2, hc1]; simp [List.dropLast_cons_of_ne_nil]

/-- **C2** (cooperative yield).  In a state with current process `c` and ready
queue `q` (all of them processes, that is non-`NULL`):
* if `q = p1 :: rest`, `proc_switch` returns with `CurrentProcess = p1` and
  ready queue `rest ++ [c]`;
* if `q` is empty, `proc_switch` returns with `CurrentProcess = c` and an empty
  ready queue;
* when every process yields in its turn, the `k + 1` calls of `proc_switch`
  select `p1, .., pk, c` in that order, so `c` is selected again only after
  each of `p1 .. pk` has been selected once, and the state is then back to
  current process `c` with ready queue `q`. -/
theorem proc_switch_fifo (cfg : Config) (s : State) (c : Int) (q : List Int)
    (hc : s.CurrentProcess = c) (hq : s.ProcReadyList = q)
    (hcv : c ≠ 0) (hvalid : ∀ p ∈ q, p ≠ 0) :
    (∀ isr p1 rest, q = p1 :: rest →
      ∃ s1, proc_switch cfg isr s = some s1 ∧ s1.CurrentProcess = p1 ∧
        s1.ProcReadyList = rest ++ [c]) ∧
    (∀ isr, q = [] →
      ∃ s1, proc_switch cfg isr s = some s1 ∧ s1.CurrentProcess = c ∧
        s1.ProcReadyList = []) ∧
    (∀ isrs : List (List (List Int)), isrs.length = q.length + 1 →
      ∃ s1, switch_all cfg isrs s = some (q ++ [c], s1) ∧ s1.CurrentProcess = c ∧
        s1.ProcReadyList = q) := by
  refine ⟨?_, ?_, ?_⟩
  · intro isr p1 rest hq1
    obtain ⟨s1, h1, hc1, hq1⟩ := proc_switch_head cfg isr s p1 rest (by rw [hq, hq1])
      (hvalid p1 (by simp [hq1]))
    exact ⟨s1, h1, hc1, by rw [hq1, hc]⟩
  · intro isr hq1
    obtain ⟨s1, h1, hc1, hq1⟩ := proc_switch_alone cfg isr s (by rw [hq, hq1]) (by rw [hc]; exact hcv)
    exact ⟨s1, h1, by rw [hc1, hc], hq1⟩
  · intro isrs hlen
    -- enqueue `c`, then let `q ++ [c]` be selected in order
    cases isrs with
    | nil => simp at hlen
    | cons isr isrs =>
      cases hqc : q with
      | nil =>
        subst hqc
        have hnil : isrs = [] := by
          cases isrs with
          | nil => rfl
          | cons _ _ => simp at hlen
        subst hnil
        obtain ⟨s1, h1, hc1, hq1⟩ := proc_switch_alone cfg isr s hq (by rw [hc]; exact hcv)
        exact ⟨s1, by simp [switch_all, h1, hc1, hc], by rw [hc1, hc], hq1⟩
      | cons p1 rest =>
        subst hqc
        obtain ⟨s1, h1, hc1, hq1⟩ := proc_switch_head cfg isr s p1 rest hq
          (hvalid p1 (List.mem_cons_self _ _))
        have hv2 : ∀ x ∈ rest ++ [c], x ≠ 0 := by
          intro x hx
          rcases List.mem_append.1 hx with hx | hx
          · exact hvalid x (List.mem_cons_of_mem _ hx)
          · simp at hx; rw [hx]; exact hcv
        obtain ⟨s2, h2, hc2, hq2⟩ := switch_all_prefix cfg (rest ++ [c]) isrs [] s1
          (by simp [hq1, hc]) hv2 (by simpa using hlen)
        refine ⟨s2, by simp [switch_all, h1, h2, hc1], ?_, ?_⟩
        · rw [hc2]; simp
        · rw [hq2, hc1]; simp [List.dropLast_cons_of_ne_nil]

/-! ## Process creation -/

/-- **C3** (creation failure atomicity, dynamic-heap build).  When
`proc_new_with_name` is called without a stack buffer and `heap_alloc` fails
for the size requested, the call returns `NULL`; the ready queue,
`CurrentProcess` and the whole PCB memory are as before, and so is everything
else in the state: the only thing that happened is the failed `heap_alloc`. -/
theorem proc_new_heap_failure_atomic (cfg : Config) (heap_alloc : Nat → Int)
    (entry data stack_size : Nat) (s : State)
    (hemul : cfg.ARCH_EMUL = false) (hheap : cfg.CONFIG_KERN_HEAP = true)
    (hfail : heap_alloc (if stack_size = 0 then
      (cfg.CONFIG_PROC_DEFSTACKSIZE + cfg.sizeof_Process) % 2 ^ cfg.SIZE_T_BITS
      else stack_size) = 0) :
    (proc_new_with_name cfg heap_alloc entry data stack_size 0 s).1 = 0 ∧
    (proc_new_with_name cfg heap_alloc entry data stack_size 0 s).2.ProcReadyList
      = s.ProcReadyList ∧
    (proc_new_with_name cfg heap_alloc entry data stack_size 0 s).2.CurrentProcess
      = s.CurrentProcess ∧
    (proc_new_with_name cfg heap_alloc entry data stack_size 0 s).2.pcb = s.pcb ∧
    (proc_new_with_name cfg heap_alloc entry data stack_size 0 s).2.StackFreeList
      = s.StackFreeList ∧
    (proc_new_with_name cfg heap_alloc entry data stack_size 0 s).2.Quantum = s.Quantum ∧
    (proc_new_with_name cfg heap_alloc entry data stack_size 0 s).2.sp = s.sp ∧
    (proc_new_with_name cfg heap_alloc entry data stack_size 0 s).2.irq = s.irq ∧
    (proc_new_with_name cfg heap_alloc entry data stack_size 0 s).2.trace
      = s.trace ++ [Event.heap_alloc (if stack_size = 0 then
          (cfg.CONFIG_PROC_DEFSTACKSIZE + cfg.sizeof_Process) % 2 ^ cfg.SIZE_T_BITS
          else stack_size) 0] := by
  rw [proc_new_heap_fail cfg heap_alloc entry data stack_size s hemul hheap hfail]
  exact ⟨rfl, rfl, rfl, rfl, rfl, rfl, rfl, rfl, rfl⟩


/-- Instance of the FIFO property: `5` is enqueued, then a process is created
at `1064`; two calls of `proc_schedule` select `5`, then `1064`. -/
theorem ready_queue_fifo_witness :
    (enqueue_all cfgHeap enqueueTwo state0).1 = [5, 1064] ∧
    ∃ s1, schedule_all cfgHeap [[], []] (enqueue_all cfgHeap enqueueTwo state0).2
        = some ((enqueue_all cfgHeap enqueueTwo state0).1, s1) ∧
      s1.ProcReadyList = [] :=
  ⟨by decide, ready_queue_fifo cfgHeap state0 enqueueTwo [[], []] rfl (by decide) rfl⟩

/-- Instance of the cooperative yield: process `100` yields while `5` and `6`
are ready. -/
theorem proc_switch_fifo_witness :
    (∀ isr p1 rest, [5, 6] = p1 :: rest →
      ∃ s1, proc_switch cfgHeap isr state56 = some s1 ∧ s1.CurrentProcess = p1 ∧
        s1.ProcReadyList = rest ++ [100]) ∧
    (∀ isr, [5, 6] = ([] : List Int) →
      ∃ s1, proc_switch cfgHeap isr state56 = some s1 ∧ s1.CurrentProcess = 100 ∧
        s1.ProcReadyList = []) ∧
    (∀ isrs : List (List (List Int)), isrs.length = [5, 6].length + 1 →
      ∃ s1, switch_all cfgHeap isrs state56 = some ([5, 6] ++ [100], s1) ∧
        s1.CurrentProcess = 100 ∧ s1.ProcReadyList = [5, 6]) :=
  proc_switch_fifo cfgHeap state56 100 [5, 6] rfl rfl (by decide) (by decide)

/-- Instance of the failed creation: the allocator is out of memory while `5`
and `6` are ready. -/
theorem proc_new_heap_failure_atomic_witness :
    (proc_new_with_name cfgHeap allocFail 1 2 0 0 state56).1 = 0 ∧
    (proc_new_with_name cfgHeap allocFail 1 2 0 0 state56).2.ProcReadyList = [5, 6] :=
  ⟨(proc_new_heap_failure_atomic cfgHeap allocFail 1 2 0 state56 rfl rfl rfl).1,
   (proc_new_heap_failure_atomic cfgHeap allocFail 1 2 0 state56 rfl rfl rfl).2.1⟩

/-- **C4** (emulated-stack pool exhaustion), evaluated on the code.  In the
hosted build, with `StackFreeList` empty, `proc_new_with_name` does not return
`NULL`: `list_remHead` yields `NULL`, no check follows, and the PCB is carved
at `NULL + CONFIG_PROC_DEFSTACKSIZE - PROC_SIZE_WORDS` words, that is at
address `48`; its fields are written and it is appended to the ready queue. -/
theorem proc_new_emul_pool_empty_creates :
    state0.StackFreeList = [] ∧
    (proc_new_with_name cfgEmul allocFail 1 2 0 0 state0).1 = 48 ∧
    (proc_new_with_name cfgEmul allocFail 1 2 0 0 state0).2.ProcReadyList = [48] ∧
    ((proc_new_with_name cfgEmul allocFail 1 2 0 0 state0).2.pcb 48).user_data = 2 ∧
    ((proc_new_with_name cfgEmul allocFail 1 2 0 0 state0).2.pcb 48).stack_base = 0 ∧
    ((proc_new_with_name cfgEmul allocFail 1 2 0 0 state0).2.pcb 48).stack_size = 64 := by
  decide

/-! ## Process termination and the heap -/

/-- **C5** (round-trip stack ownership), evaluated on the code.  In the
dynamic-heap build a process is created without a stack buffer (one
`heap_alloc`, of 80 bytes, answered with the buffer at `1000`; the PCB is carved
out of it at `1064`), the main process yields to it, and it calls `proc_exit`.
The exit calls `heap_free` twice: once for the stack buffer with its recorded
size, and once more for the PCB, which lies inside that buffer. -/
theorem proc_exit_heap_stack_frees_twice :
    (proc_new_with_name cfgHeap alloc1000 1 2 0 0 state0).1 = 1064 ∧
    (((proc_switch cfgHeap [] (proc_new_with_name cfgHeap alloc1000 1 2 0 0 state0).2).bind
        (proc_exit cfgHeap [])).map (fun s => (heap_allocs s.trace, heap_frees s.trace)))
      = some ([(80, 1000)], [(1000, some 80), (1064, none)]) := by
  decide

/-- **C6** (caller-owned memory is never freed), evaluated on the code.  In
the dynamic-heap build a process is created on the caller's buffer of 80 bytes
at `2000` (no `heap_alloc`, `PF_FREESTACK` clear, PCB at `2064` inside the
buffer), the main process yields to it, and it calls `proc_exit`.  The exit
calls `heap_free` on the PCB. -/
theorem proc_exit_caller_stack_frees_pcb :
    (proc_new_with_name cfgHeap alloc1000 1 2 80 2000 state0).1 = 2064 ∧
    ((proc_new_with_name cfgHeap alloc1000 1 2 80 2000 state0).2.pcb 2064).flags = 0 ∧
    (((proc_switch cfgHeap [] (proc_new_with_name cfgHeap alloc1000 1 2 80 2000 state0).2).bind
        (proc_exit cfgHeap [])).map (fun s => (heap_allocs s.trace, heap_frees s.trace)))
      = some ([], [(2064, none)]) := by
  decide

/-! ## Context switches -/

theorem switch_count_append (a b : List Event) :
    switch_count (a ++ b) = switch_count a + switch_count b := by
  induction a with
  | nil => simp [switch_count]
  | cons e a ih =>
    cases e <;> simp [switch_count, ih]
    omega

theorem sched_dequeue_switch_count (s : State) :
    switch_count (sched_dequeue s).trace = switch_count s.trace := by
  simp [sched_dequeue, switch_count_append, switch_count]

theorem sched_idle_switch_count (woken : List Int) (s : State) :
    switch_count (sched_idle woken s).trace = switch_count s.trace := by
  simp [sched_idle, switch_count_append, switch_count]

/-- The polling loop never calls `asm_switch_context`, and the process it
leaves in `CurrentProcess` is not `NULL`. -/
theorem sched_poll_switch_count (isr : List (List Int)) (s s1 : State)
    (h : sched_poll isr s = some s1) :
    switch_count s1.trace = switch_count s.trace ∧ s1.CurrentProcess ≠ 0 := by
  induction isr generalizing s with
  | nil =>
    simp only [sched_poll] at h
    split at h
    · cases h
      rename_i hne
      exact ⟨sched_dequeue_switch_count s, hne⟩
    · cases h
  | cons woken isr ih =>
    simp only [sched_poll] at h
    split at h
    · cases h
      rename_i hne
      exact ⟨sched_dequeue_switch_count s, hne⟩
    · obtain ⟨h1, h2⟩ := ih _ h
      exact ⟨by rw [h1, sched_idle_switch_count, sched_dequeue_switch_count], h2⟩

/-- **C7** (no self-switch).  Take any call of `proc_schedule` whose polling
loop ends, having dequeued a process (`s1` is the state at the exit of the
loop, `s1.CurrentProcess` the process dequeued).  The call returns with that
process current; if it is the PCB that was current on entry,
`asm_switch_context` is not invoked (the number of context switches is
unchanged); if it differs from the one current on entry (which may be `NULL`),
`asm_switch_context` is invoked exactly once. -/
theorem proc_schedule_no_self_switch (cfg : Config) (isr : List (List Int)) (s s1 : State)
    (hpoll : sched_poll isr { s with irq := false } = some s1) :
    ∃ s2, proc_schedule cfg isr s = some s2 ∧
      s2.CurrentProcess = s1.CurrentProcess ∧
      (s1.CurrentProcess = s.CurrentProcess →
        switch_count s2.trace = switch_count s.trace ∧ s2.trace = s1.trace) ∧
      (s1.CurrentProcess ≠ s.CurrentProcess →
        switch_count s2.trace = switch_count s.trace + 1 ∧
        s2.trace = s1.trace ++ [Event.asm_switch_context s1.CurrentProcess
          (if s.CurrentProcess ≠ 0 then some s.CurrentProcess else none)]) := by
  have hcnt := (sched_poll_switch_count isr _ s1 hpoll).1
  simp only at hcnt
  refine ⟨sched_switch cfg s.CurrentProcess { s1 with irq := s.irq }, ?_, ?_, ?_, ?_⟩
  · simp [proc_schedule, hpoll]
  · rw [(sched_switch_frame _ _ _).2.1]
  · intro heq
    simp [sched_switch, heq, hcnt]
  · intro hne
    have ht : (sched_switch cfg s.CurrentProcess { s1 with irq := s.irq }).trace =
        s1.trace ++ [Event.asm_switch_context s1.CurrentProcess
          (if s.CurrentProcess ≠ 0 then some s.CurrentProcess else none)] := by
      simp only [sched_switch, hne, ne_eq, not_false_eq_true, if_true]
      cases cfg.CONFIG_KERN_PREEMPTIVE <;> simp [asm_switch_context_frame]
    rw [ht, switch_count_append, hcnt]
    simp [switch_count]

/-- Instances of both cases: the running process heads the ready queue (no
context switch), and another process heads it (one context switch). -/
theorem proc_schedule_no_self_switch_witness :
    (∃ s2, proc_schedule cfgHeap [] stateSelf = some s2 ∧ s2.CurrentProcess = 100 ∧
      switch_count s2.trace = 0) ∧
    (∃ s2, proc_schedule cfgHeap [] state56 = some s2 ∧ s2.CurrentProcess = 5 ∧
      switch_count s2.trace = 1) := by
  constructor
  · obtain ⟨s2, h, hc, hsame, _⟩ := proc_schedule_no_self_switch cfgHeap [] stateSelf _
      (sched_poll_head [] { stateSelf with irq := false } 100 [] rfl (by decide))
    exact ⟨s2, h, hc, (hsame rfl).1⟩
  · obtain ⟨s2, h, hc, _, hdiff⟩ := proc_schedule_no_self_switch cfgHeap [] state56 _
      (sched_poll_head [] { state56 with irq := false } 5 [6] rfl (by decide))
    exact ⟨s2, h, hc, (hdiff (by decide)).1⟩

/-! ## The fields of a new PCB -/

theorem CPU_PUSH_WORD_pcb (cfg : Config) (proc : Int) (s : State) :
    (∃ st, (CPU_PUSH_WORD cfg proc s).pcb proc = { s.pcb proc with stack := st }) ∧
    (∀ a, a ≠ proc → (CPU_PUSH_WORD cfg proc s).pcb a = s.pcb a) := by
  refine ⟨⟨if cfg.CPU_STACK_GROWS_UPWARD then (s.pcb proc).stack + cfg.sizeof_cpustack_t
    else (s.pcb proc).stack - cfg.sizeof_cpustack_t, by simp [CPU_PUSH_WORD]⟩, ?_⟩
  intro a ha
  simp [CPU_PUSH_WORD, State.setPcb, ha]

theorem push_words_pcb (cfg : Config) (proc : Int) (n : Nat) (s : State) :
    (∃ st, (push_words cfg proc n s).pcb proc = { s.pcb proc with stack := st }) ∧
    (∀ a, a ≠ proc → (push_words cfg proc n s).pcb a = s.pcb a) := by
  induction n generalizing s with
  | zero => exact ⟨⟨(s.pcb proc).stack, rfl⟩, fun _ _ => rfl⟩
  | succ n ih =>
    obtain ⟨⟨st, h1⟩, h2⟩ := ih (CPU_PUSH_WORD cfg proc s)
    obtain ⟨⟨st0, h3⟩, h4⟩ := CPU_PUSH_WORD_pcb cfg proc s
    refine ⟨⟨st, ?_⟩, ?_⟩
    · simp only [push_words]
      rw [h1, h3]
    · intro a ha
      simp only [push_words]
      rw [h2 a ha, h4 a ha]

theorem proc_init_struct_pcb (cfg : Config) (proc : Int) (s : State) :
    (proc_init_struct cfg proc s).pcb proc =
      { s.pcb proc with
        sig_recv := if cfg.CONFIG_KERN_SIGNALS then 0 else (s.pcb proc).sig_recv
        forbid_cnt := if cfg.CONFIG_KERN_PREEMPTIVE then 0 else (s.pcb proc).forbid_cnt
        flags := if cfg.CONFIG_KERN_HEAP then 0 else (s.pcb proc).flags } := by
  unfold proc_init_struct
  cases cfg.CONFIG_KERN_SIGNALS <;> cases cfg.CONFIG_KERN_PREEMPTIVE <;>
    cases cfg.CONFIG_KERN_HEAP <;> simp

/-- The PCB that `proc_new_with_name` leaves behind (lines 196-230), field by
field; a field that the build does not assign keeps the previous content of the
memory. -/
theorem proc_new_setup_pcb (cfg : Config) (free_stack : Bool) (entry data stack_size : Nat)
    (stack_base : Int) (s : State) :
    ∃ st, (proc_new_setup cfg free_stack entry data stack_size stack_base s).2.pcb
        (proc_new_setup cfg free_stack entry data stack_size stack_base s).1 =
      { stack := st
        user_data := data
        stack_base :=
          if cfg.CONFIG_KERN_HEAP || cfg.CONFIG_KERN_MONITOR || cfg.ARCH_EMUL then stack_base
          else (s.pcb (proc_new_setup cfg free_stack entry data stack_size stack_base s).1).stack_base
        stack_size :=
          if cfg.CONFIG_KERN_HEAP || cfg.CONFIG_KERN_MONITOR || cfg.ARCH_EMUL then stack_size
          else (s.pcb (proc_new_setup cfg free_stack entry data stack_size stack_base s).1).stack_size
        flags :=
          if cfg.CONFIG_KERN_HEAP then (if free_stack then 0 ||| cfg.PF_FREESTACK else 0)
          else (s.pcb (proc_new_setup cfg free_stack entry data stack_size stack_base s).1).flags
        forbid_cnt :=
          if cfg.CONFIG_KERN_PREEMPTIVE then 0
          else (s.pcb (proc_new_setup cfg free_stack entry data stack_size stack_base s).1).forbid_cnt
        sig_recv :=
          if cfg.CONFIG_KERN_SIGNALS then 0
          else (s.pcb (proc_new_setup cfg free_stack entry data stack_size stack_base s).1).sig_recv } := by
  rw [proc_new_setup_fst]
  simp only [proc_new_setup, ATOMIC, SCHED_ENQUEUE, CPU_PUSH_CALL_FRAME]
  obtain ⟨st3, h3⟩ := (push_words_pcb cfg _ cfg.CPU_SAVED_REGS_CNT
    (push_words cfg _ cfg.CPU_CALL_FRAME_WORDS (push_words cfg _ cfg.CPU_CALL_FRAME_WORDS _))).1
  obtain ⟨st2, h2⟩ := (push_words_pcb cfg _ cfg.CPU_CALL_FRAME_WORDS
    (push_words cfg _ cfg.CPU_CALL_FRAME_WORDS _)).1
  obtain ⟨st1, h1⟩ := (push_words_pcb cfg _ cfg.CPU_CALL_FRAME_WORDS _).1
  refine ⟨st3, ?_⟩
  rw [h3, h2, h1]
  generalize (if cfg.CPU_STACK_GROWS_UPWARD = true then stack_base
    else stack_base
      + ((stack_size / cfg.sizeof_cpustack_t : Nat) : Int) * (cfg.sizeof_cpustack_t : Int)
      - (PROC_SIZE_WORDS cfg : Int) * (cfg.sizeof_cpustack_t : Int)) = proc
  have hm : (if cfg.CONFIG_KERN_MONITOR = true then monitor_fill cfg stack_base stack_size s
      else s).pcb = s.pcb := by
    split <;> rfl
  generalize (if cfg.CONFIG_KERN_MONITOR = true then monitor_fill cfg stack_base stack_size s
      else s) = s1 at hm ⊢
  cases hH : cfg.CONFIG_KERN_HEAP <;> cases cfg.CONFIG_KERN_MONITOR <;> cases cfg.ARCH_EMUL <;>
    cases free_stack <;>
    simp only [Bool.or_self, Bool.or_true, Bool.or_false, Bool.true_or, Bool.and_true,
      Bool.and_false, Bool.false_and, Bool.true_and, if_true, if_false, Bool.false_eq_true,
      setPcb_pcb_same, proc_init_struct_pcb, hm, hH]

theorem heap_allocs_append (a b : List Event) :
    heap_allocs (a ++ b) = heap_allocs a ++ heap_allocs b := by
  induction a with
  | nil => simp [heap_allocs]
  | cons e a ih => cases e <;> simp [heap_allocs, ih]

theorem push_words_heap_allocs (cfg : Config) (proc : Int) (n : Nat) (s : State) :
    heap_allocs (push_words cfg proc n s).trace = heap_allocs s.trace := by
  induction n generalizing s with
  | zero => rfl
  | succ n ih =>
    simp only [push_words]
    rw [ih]
    simp [CPU_PUSH_WORD, heap_allocs_append, heap_allocs]

theorem proc_new_setup_heap_allocs (cfg : Config) (free_stack : Bool)
    (entry data stack_size : Nat) (stack_base : Int) (s : State) :
    heap_allocs (proc_new_setup cfg free_stack entry data stack_size stack_base s).2.trace =
      heap_allocs s.trace := by
  simp only [proc_new_setup, ATOMIC, SCHED_ENQUEUE, CPU_PUSH_CALL_FRAME, push_words_heap_allocs]
  cases cfg.CONFIG_KERN_HEAP <;> cases cfg.CONFIG_KERN_MONITOR <;> cases cfg.ARCH_EMUL <;>
    cases free_stack <;>
    simp [(proc_init_struct_frame _ _ _).2.2.1, monitor_fill, heap_allocs_append, heap_allocs]

/-- **C9**, as amended (default stack size, dynamic-heap build).  When
`proc_new_with_name` is called with `stack_size = 0` and no stack buffer, and
`CONFIG_PROC_DEFSTACKSIZE + sizeof(Process)` fits in a `size_t`, the zero size
does not make the call fail: exactly one request goes to `heap_alloc`, for
`CONFIG_PROC_DEFSTACKSIZE + sizeof(Process)` bytes, and whenever it succeeds
the call returns the PCB carved out of the buffer obtained, appended to the ready
queue, with that size recorded in `stack_size`, the buffer in `stack_base`
and `PF_FREESTACK` set; the pointer returned is not `NULL` as soon as the
buffer lies at a positive address and is large enough to hold the PCB. -/
theorem proc_new_default_stack_size (cfg : Config) (heap_alloc : Nat → Int) (entry data : Nat)
    (s : State) (hemul : cfg.ARCH_EMUL = false) (hheap : cfg.CONFIG_KERN_HEAP = true)
    (hfit : cfg.CONFIG_PROC_DEFSTACKSIZE + cfg.sizeof_Process < 2 ^ cfg.SIZE_T_BITS)
    (hok : heap_alloc (cfg.CONFIG_PROC_DEFSTACKSIZE + cfg.sizeof_Process) ≠ 0) :
    heap_allocs (proc_new_with_name cfg heap_alloc entry data 0 0 s).2.trace =
      heap_allocs s.trace ++ [(cfg.CONFIG_PROC_DEFSTACKSIZE + cfg.sizeof_Process,
        heap_alloc (cfg.CONFIG_PROC_DEFSTACKSIZE + cfg.sizeof_Process))] ∧
    ((proc_new_with_name cfg heap_alloc entry data 0 0 s).2.pcb
        (proc_new_with_name cfg heap_alloc entry data 0 0 s).1).stack_size =
      cfg.CONFIG_PROC_DEFSTACKSIZE + cfg.sizeof_Process ∧
    ((proc_new_with_name cfg heap_alloc entry data 0 0 s).2.pcb
        (proc_new_with_name cfg heap_alloc entry data 0 0 s).1).stack_base =
      heap_alloc (cfg.CONFIG_PROC_DEFSTACKSIZE + cfg.sizeof_Process) ∧
    ((proc_new_with_name cfg heap_alloc entry data 0 0 s).2.pcb
        (proc_new_with_name cfg heap_alloc entry data 0 0 s).1).flags =
      0 ||| cfg.PF_FREESTACK ∧
    (proc_new_with_name cfg heap_alloc entry data 0 0 s).2.ProcReadyList =
      s.ProcReadyList ++ [(proc_new_with_name cfg heap_alloc entry data 0 0 s).1] ∧
    (proc_new_with_name cfg heap_alloc entry data 0 0 s).1 =
      (if cfg.CPU_STACK_GROWS_UPWARD then
        heap_alloc (cfg.CONFIG_PROC_DEFSTACKSIZE + cfg.sizeof_Process)
      else heap_alloc (cfg.CONFIG_PROC_DEFSTACKSIZE + cfg.sizeof_Process)
        + (((cfg.CONFIG_PROC_DEFSTACKSIZE + cfg.sizeof_Process) / cfg.sizeof_cpustack_t : Nat)
            : Int) * (cfg.sizeof_cpustack_t : Int)
        - (PROC_SIZE_WORDS cfg : Int) * (cfg.sizeof_cpustack_t : Int)) ∧
    (0 < heap_alloc (cfg.CONFIG_PROC_DEFSTACKSIZE + cfg.sizeof_Process) →
      PROC_SIZE_WORDS cfg ≤
        (cfg.CONFIG_PROC_DEFSTACKSIZE + cfg.sizeof_Process) / cfg.sizeof_cpustack_t →
      (proc_new_with_name cfg heap_alloc entry data 0 0 s).1 ≠ 0) := by
  have hsize : (if (0 : Nat) = 0 then
      (cfg.CONFIG_PROC_DEFSTACKSIZE + cfg.sizeof_Process) % 2 ^ cfg.SIZE_T_BITS else 0) =
      cfg.CONFIG_PROC_DEFSTACKSIZE + cfg.sizeof_Process := by
    simp [Nat.mod_eq_of_lt hfit]
  have hrun := proc_new_heap_ok cfg heap_alloc entry data 0 s hemul hheap (by rw [hsize]; exact hok)
  rw [hsize] at hrun
  obtain ⟨st, hpcb⟩ := proc_new_setup_pcb cfg true entry data
    (cfg.CONFIG_PROC_DEFSTACKSIZE + cfg.sizeof_Process)
    (heap_alloc (cfg.CONFIG_PROC_DEFSTACKSIZE + cfg.sizeof_Process))
    (s.emit (Event.heap_alloc (cfg.CONFIG_PROC_DEFSTACKSIZE + cfg.sizeof_Process)
      (heap_alloc (cfg.CONFIG_PROC_DEFSTACKSIZE + cfg.sizeof_Process))))
  rw [hrun]
  refine ⟨?_, ?_, ?_, ?_, ?_, ?_, ?_⟩
  · rw [proc_new_setup_heap_allocs]
    simp [heap_allocs_append, heap_allocs]
  · rw [hpcb]; simp [hheap]
  · rw [hpcb]; simp [hheap]
  · rw [hpcb]; simp [hheap]
  · rw [(proc_new_setup_frame _ _ _ _ _ _ _).1]; rfl
  · rw [proc_new_setup_fst]
  · intro hpos hfits
    rw [proc_new_setup_fst]
    split
    · omega
    · have hle : (PROC_SIZE_WORDS cfg : Int) * (cfg.sizeof_cpustack_t : Int) ≤
          (((cfg.CONFIG_PROC_DEFSTACKSIZE + cfg.sizeof_Process) / cfg.sizeof_cpustack_t : Nat)
            : Int) * (cfg.sizeof_cpustack_t : Int) := by
        have := Nat.mul_le_mul_right cfg.sizeof_cpustack_t hfits
        exact_mod_cast this
      omega

/-- Instance of the default stack size: 64 + 16 = 80 bytes are requested and
recorded. -/
theorem proc_new_default_stack_size_witness :
    heap_allocs (proc_new_with_name cfgHeap alloc1000 1 2 0 0 state0).2.trace = [(80, 1000)] ∧
    ((proc_new_with_name cfgHeap alloc1000 1 2 0 0 state0).2.pcb
        (proc_new_with_name cfgHeap alloc1000 1 2 0 0 state0).1).stack_size = 80 :=
  ⟨(proc_new_default_stack_size cfgHeap alloc1000 1 2 state0 rfl rfl (by decide) (by decide)).1,
   (proc_new_default_stack_size cfgHeap alloc1000 1 2 state0 rfl rfl (by decide) (by decide)).2.1⟩

/-- **C9**, as stated, fails on the code: in the build `cfgHeap`
(`CONFIG_PROC_DEFSTACKSIZE = 64`, `sizeof(Process) = 16`) a creation with
`stack_size = 0` and no buffer succeeds, but the size requested from
`heap_alloc` and the size recorded in the PCB are not
`CONFIG_PROC_DEFSTACKSIZE`. -/
theorem default_request_exceeds_defstacksize :
    (proc_new_with_name cfgHeap alloc1000 1 2 0 0 state0).1 ≠ 0 ∧
    heap_allocs (proc_new_with_name cfgHeap alloc1000 1 2 0 0 state0).2.trace ≠
      [(cfgHeap.CONFIG_PROC_DEFSTACKSIZE, alloc1000 cfgHeap.CONFIG_PROC_DEFSTACKSIZE)] ∧
    ((proc_new_with_name cfgHeap alloc1000 1 2 0 0 state0).2.pcb
        (proc_new_with_name cfgHeap alloc1000 1 2 0 0 state0).1).stack_size ≠
      cfgHeap.CONFIG_PROC_DEFSTACKSIZE := by
  decide

/-! ## Process termination -/

theorem proc_exit_teardown_frame (cfg : Config) (s : State) :
    (proc_exit_teardown cfg s).CurrentProcess = 0 ∧
    (proc_exit_teardown cfg s).ProcReadyList = s.ProcReadyList ∧
    (proc_exit_teardown cfg s).pcb = s.pcb ∧
    (proc_exit_teardown cfg s).irq = s.irq ∧
    (proc_exit_teardown cfg s).sp = s.sp ∧
    switch_count (proc_exit_teardown cfg s).trace = switch_count s.trace := by
  unfold proc_exit_teardown
  cases cfg.CONFIG_KERN_HEAP <;> cases cfg.ARCH_EMUL <;>
    by_cases hf : (s.pcb s.CurrentProcess).flags &&& cfg.PF_FREESTACK = 0 <;>
    simp [hf, PROC_ATOMIC, ATOMIC, switch_count_append, switch_count]

/-- **C10** (termination).  In a state with current process `c` and ready
queue `p1 :: rest`, `p1` a process, `proc_exit` first sets `CurrentProcess` to
`NULL` and then runs `proc_schedule` from there; it ends with
`CurrentProcess = p1` and ready queue `rest`.  When `c` was not in the ready
queue it is afterwards neither current nor in the ready queue.  The scheduler
performs exactly one context switch, whose save location is the local
`dummy`: no PCB is written, so the stack-pointer field of `c` is untouched. -/
theorem proc_exit_terminates (cfg : Config) (isr : List (List Int)) (s : State) (p1 : Int)
    (rest : List Int) (hq : s.ProcReadyList = p1 :: rest) (hp : p1 ≠ 0) :
    (proc_exit_teardown cfg s).CurrentProcess = 0 ∧
    proc_exit cfg isr s = proc_schedule cfg isr (proc_exit_teardown cfg s) ∧
    ∃ s1, proc_exit cfg isr s = some s1 ∧
      s1.CurrentProcess = p1 ∧ s1.ProcReadyList = rest ∧
      (s.CurrentProcess ∉ s.ProcReadyList →
        s1.CurrentProcess ≠ s.CurrentProcess ∧ s.CurrentProcess ∉ s1.ProcReadyList) ∧
      s1.trace = (proc_exit_teardown cfg s).trace ++
        [Event.remHead false, Event.asm_switch_context p1 none] ∧
      switch_count s1.trace = switch_count s.trace + 1 ∧
      s1.pcb = s.pcb ∧
      (s1.pcb s.CurrentProcess).stack = (s.pcb s.CurrentProcess).stack := by
  obtain ⟨hcur, hql, hpcb, _, _, hsw⟩ := proc_exit_teardown_frame cfg s
  refine ⟨hcur, rfl, ?_⟩
  have hq2 : (proc_exit_teardown cfg s).ProcReadyList = p1 :: rest := by rw [hql, hq]
  have hrun := proc_schedule_head cfg isr (proc_exit_teardown cfg s) p1 rest hq2 hp
  have hne : ¬ p1 = 0 := hp
  have htrace : (sched_switch cfg (proc_exit_teardown cfg s).CurrentProcess
      { sched_dequeue { proc_exit_teardown cfg s with irq := false } with
        irq := (proc_exit_teardown cfg s).irq }).trace =
      (proc_exit_teardown cfg s).trace ++
        [Event.remHead false, Event.asm_switch_context p1 none] := by
    rw [hcur]
    simp only [sched_switch, sched_dequeue, list_remHead, hq2, ne_eq, hne, not_false_eq_true,
      if_true]
    cases cfg.CONFIG_KERN_PREEMPTIVE <;> simp [asm_switch_context]
  have hpcb1 : (sched_switch cfg (proc_exit_teardown cfg s).CurrentProcess
      { sched_dequeue { proc_exit_teardown cfg s with irq := false } with
        irq := (proc_exit_teardown cfg s).irq }).pcb = s.pcb := by
    rw [hcur, ← hpcb]
    simp only [sched_switch, sched_dequeue, list_remHead, hq2, ne_eq, hne, not_false_eq_true,
      if_true]
    cases cfg.CONFIG_KERN_PREEMPTIVE <;> simp [asm_switch_context]
  refine ⟨_, hrun, ?_, ?_, ?_, htrace, ?_, hpcb1, by rw [hpcb1]⟩
  · rw [(sched_switch_frame _ _ _).2.1]
    simp [sched_dequeue, list_remHead, hq2]
  · rw [(sched_switch_frame _ _ _).1]
    simp [sched_dequeue, list_remHead, hq2]
  · intro hnot
    rw [hq] at hnot
    rw [(sched_switch_frame _ _ _).2.1, (sched_switch_frame _ _ _).1]
    simp only [sched_dequeue, list_remHead, hq2]
    simp only [List.mem_cons, not_or] at hnot
    exact ⟨fun h => hnot.1 h.symm, hnot.2⟩
  · rw [htrace, switch_count_append, hsw]
    simp [switch_count]

/-- Instance of the termination: process `100` exits while `5` and `6` are
ready. -/
theorem proc_exit_terminates_witness :
    ∃ s1, proc_exit cfgHeap [] state56 = some s1 ∧
      s1.CurrentProcess = 5 ∧ s1.ProcReadyList = [6] := by
  obtain ⟨_, _, s1, h, hc, hq, _⟩ :=
    proc_exit_terminates cfgHeap [] state56 5 [6] rfl (by decide)
  exact ⟨s1, h, hc, hq⟩

/-! ## The preemption gate -/

theorem proc_forbid_CurrentProcess (s : State) :
    (proc_forbid s).CurrentProcess = s.CurrentProcess := rfl

theorem proc_permit_CurrentProcess (s : State) :
    (proc_permit s).CurrentProcess = s.CurrentProcess := rfl

theorem gate_run_CurrentProcess (g : Gate) (s : State) :
    (g.run s).CurrentProcess = s.CurrentProcess := by
  cases g <;> rfl

theorem run_gates_forbid_cnt (gs : List Gate) (s : State) :
    (run_gates gs s).CurrentProcess = s.CurrentProcess ∧
    ((run_gates gs s).pcb s.CurrentProcess).forbid_cnt =
      (s.pcb s.CurrentProcess).forbid_cnt + (forbid_calls gs : Int) - (permit_calls gs : Int) := by
  induction gs generalizing s with
  | nil => simp [run_gates, forbid_calls, permit_calls]
  | cons g gs ih =>
    obtain ⟨h1, h2⟩ := ih (g.run s)
    rw [gate_run_CurrentProcess] at h1 h2
    refine ⟨h1, ?_⟩
    simp only [run_gates]
    rw [h2]
    cases g
    · simp [Gate.run, proc_forbid, forbid_calls, permit_calls, List.count_cons]
      omega
    · simp [Gate.run, proc_permit, forbid_calls, permit_calls, List.count_cons]
      omega

theorem proc_init_struct_forbid_cnt (cfg : Config) (proc : Int) (s : State)
    (hpre : cfg.CONFIG_KERN_PREEMPTIVE = true) :
    ((proc_init_struct cfg proc s).pcb proc).forbid_cnt = 0 := by
  unfold proc_init_struct
  cases cfg.CONFIG_KERN_SIGNALS <;> cases cfg.CONFIG_KERN_HEAP <;> simp [hpre]

theorem proc_permit_proc_forbid (s : State) : proc_permit (proc_forbid s) = s := by
  cases s with
  | mk rl cur qt fl pcb sp irq tr =>
    simp only [proc_permit, proc_forbid, State.setPcb, State.mk.injEq, true_and, and_true]
    funext a
    by_cases h : a = cur
    · subst h; simp
    · simp [h]

theorem sched_switch_forbid_cnt (cfg : Config) (old_process : Int) (s : State) (a : Int) :
    ((sched_switch cfg old_process s).pcb a).forbid_cnt = (s.pcb a).forbid_cnt := by
  unfold sched_switch
  split
  · by_cases ho : old_process = 0
    · cases cfg.CONFIG_KERN_PREEMPTIVE <;> simp [asm_switch_context, ho]
    · by_cases ha : a = old_process
      · cases cfg.CONFIG_KERN_PREEMPTIVE <;> simp [asm_switch_context, ho, ha]
      · cases cfg.CONFIG_KERN_PREEMPTIVE <;>
          simp [asm_switch_context, ho, setPcb_pcb_other _ _ _ _ ha]
  · rfl

theorem proc_new_with_name_forbid_cnt (cfg : Config) (heap_alloc : Nat → Int)
    (entry data stack_size : Nat) (stack_base : Int) (s : State)
    (hpre : cfg.CONFIG_KERN_PREEMPTIVE = true)
    (hsome : (proc_new_with_name cfg heap_alloc entry data stack_size stack_base s).1 ≠ 0) :
    ((proc_new_with_name cfg heap_alloc entry data stack_size stack_base s).2.pcb
      (proc_new_with_name cfg heap_alloc entry data stack_size stack_base s).1).forbid_cnt = 0 := by
  rcases proc_new_cases cfg heap_alloc entry data stack_size stack_base s with
    ⟨size, b, h⟩ | ⟨f, size, b, t, _, _, h⟩
  · rw [h] at hsome; exact absurd rfl hsome
  · obtain ⟨st, hpcb⟩ := proc_new_setup_pcb cfg f entry data size b t
    rw [h, hpcb]
    simp [hpre]

/-- **C8** (gate invariant, preemptive build).  After any finite sequence of
`proc_forbid` / `proc_permit` calls by the current process, its `forbid_cnt`
is the value before plus the number of `proc_forbid` calls minus the number of
`proc_permit` calls.  For a process whose PCB has just been initialised by
`proc_init_struct`, and for a process created by `proc_new_with_name` and run
by the next `proc_schedule`, the counter is exactly that difference;
`proc_permit` undoes `proc_forbid`; and `forbid, forbid, permit` on a fresh
process leaves `forbid_cnt = 1`. -/
theorem gate_invariant (cfg : Config) (hpre : cfg.CONFIG_KERN_PREEMPTIVE = true) (s : State) :
    (∀ gs : List Gate,
      ((run_gates gs s).pcb s.CurrentProcess).forbid_cnt =
        (s.pcb s.CurrentProcess).forbid_cnt + (forbid_calls gs : Int) - (permit_calls gs : Int)) ∧
    (∀ gs : List Gate,
      ((run_gates gs (proc_init_struct cfg s.CurrentProcess s)).pcb s.CurrentProcess).forbid_cnt =
        (forbid_calls gs : Int) - (permit_calls gs : Int)) ∧
    (∀ (heap_alloc : Nat → Int) (entry data stack_size : Nat) (stack_base : Int)
        (isr : List (List Int)),
      s.ProcReadyList = [] →
      (proc_new_with_name cfg heap_alloc entry data stack_size stack_base s).1 ≠ 0 →
      ∃ s1, proc_schedule cfg isr
          (proc_new_with_name cfg heap_alloc entry data stack_size stack_base s).2 = some s1 ∧
        s1.CurrentProcess =
          (proc_new_with_name cfg heap_alloc entry data stack_size stack_base s).1 ∧
        ∀ gs : List Gate,
          ((run_gates gs s1).pcb s1.CurrentProcess).forbid_cnt =
            (forbid_calls gs : Int) - (permit_calls gs : Int)) ∧
    proc_permit (proc_forbid s) = s ∧
    ((run_gates [Gate.forbid, Gate.forbid, Gate.permit]
      (proc_init_struct cfg s.CurrentProcess s)).pcb s.CurrentProcess).forbid_cnt = 1 := by
  have hcur : (proc_init_struct cfg s.CurrentProcess s).CurrentProcess = s.CurrentProcess :=
    (proc_init_struct_frame cfg s.CurrentProcess s).2.1
  have hfresh : ∀ gs : List Gate,
      ((run_gates gs (proc_init_struct cfg s.CurrentProcess s)).pcb s.CurrentProcess).forbid_cnt =
        (forbid_calls gs : Int) - (permit_calls gs : Int) := by
    intro gs
    have h := (run_gates_forbid_cnt gs (proc_init_struct cfg s.CurrentProcess s)).2
    rw [hcur, proc_init_struct_forbid_cnt cfg _ s hpre] at h
    rw [h]; simp
  refine ⟨fun gs => (run_gates_forbid_cnt gs s).2, hfresh, ?_, proc_permit_proc_forbid s, ?_⟩
  · intro heap_alloc entry data stack_size stack_base isr hempty hsome
    have hq := proc_new_with_name_enqueues cfg heap_alloc entry data stack_size stack_base s hsome
    rw [hempty, List.nil_append] at hq
    have hrun := proc_schedule_head cfg isr _ _ [] hq hsome
    have hc : (sched_switch cfg
        (proc_new_with_name cfg heap_alloc entry data stack_size stack_base s).2.CurrentProcess
        { sched_dequeue
            { (proc_new_with_name cfg heap_alloc entry data stack_size stack_base s).2 with
              irq := false } with
          irq := (proc_new_with_name cfg heap_alloc entry data stack_size stack_base
            s).2.irq }).CurrentProcess =
        (proc_new_with_name cfg heap_alloc entry data stack_size stack_base s).1 := by
      rw [(sched_switch_frame _ _ _).2.1]
      simp [sched_dequeue, list_remHead, hq]
    refine ⟨_, hrun, hc, ?_⟩
    intro gs
    rw [(run_gates_forbid_cnt gs _).2, hc, sched_switch_forbid_cnt]
    have h0 := proc_new_with_name_forbid_cnt cfg heap_alloc entry data stack_size stack_base s
      hpre hsome
    simp only [sched_dequeue]
    rw [h0]; simp
  · rw [hfresh]
    decide

/-- Instance of the gate invariant on the process `100` of `state0`. -/
theorem gate_invariant_witness :
    ((run_gates [Gate.forbid, Gate.forbid, Gate.permit]
      (proc_init_struct cfgHeap state0.CurrentProcess state0)).pcb state0.CurrentProcess).forbid_cnt
      = 1 :=
  (gate_invariant cfgHeap rfl state0).2.2.2.2

/-! ## Creation does not run the new process -/

theorem push_words_switch_count (cfg : Config) (proc : Int) (n : Nat) (s : State) :
    switch_count (push_words cfg proc n s).trace = switch_count s.trace := by
  induction n generalizing s with
  | zero => rfl
  | succ n ih =>
    simp only [push_words]
    rw [ih]
    simp [CPU_PUSH_WORD, switch_count_append, switch_count]

theorem proc_new_setup_switch_count (cfg : Config) (free_stack : Bool)
    (entry data stack_size : Nat) (stack_base : Int) (s : State) :
    switch_count (proc_new_setup cfg free_stack entry data stack_size stack_base s).2.trace =
      switch_count s.trace := by
  simp only [proc_new_setup, ATOMIC, SCHED_ENQUEUE, CPU_PUSH_CALL_FRAME, push_words_switch_count]
  cases cfg.CONFIG_KERN_HEAP <;> cases cfg.CONFIG_KERN_MONITOR <;> cases cfg.ARCH_EMUL <;>
    cases free_stack <;>
    simp [(proc_init_struct_frame _ _ _).2.2.1, monitor_fill, switch_count_append, switch_count]

theorem proc_new_with_name_switch_count (cfg : Config) (heap_alloc : Nat → Int)
    (entry data stack_size : Nat) (stack_base : Int) (s : State) :
    switch_count (proc_new_with_name cfg heap_alloc entry data stack_size stack_base s).2.trace =
      switch_count s.trace := by
  cases hemul : cfg.ARCH_EMUL
  · by_cases hb : cfg.CONFIG_KERN_HEAP = false ∨ stack_base ≠ 0
    · rw [proc_new_caller_stack cfg heap_alloc entry data stack_size stack_base s hemul hb,
        proc_new_setup_switch_count]
    · simp only [not_or, Bool.not_eq_false, not_not] at hb
      obtain ⟨hheap, hz⟩ := hb
      subst hz
      by_cases hfail : heap_alloc (if stack_size = 0 then
          (cfg.CONFIG_PROC_DEFSTACKSIZE + cfg.sizeof_Process) % 2 ^ cfg.SIZE_T_BITS
          else stack_size) = 0
      · rw [proc_new_heap_fail cfg heap_alloc entry data stack_size s hemul hheap hfail]
        simp [switch_count_append, switch_count]
      · rw [proc_new_heap_ok cfg heap_alloc entry data stack_size s hemul hheap hfail,
          proc_new_setup_switch_count]
        simp [switch_count_append, switch_count]
  · rw [proc_new_emul cfg heap_alloc entry data stack_size stack_base s hemul,
      proc_new_setup_switch_count]
    rfl

/-- **C11** (creation does not run the new process).  Every call of
`proc_new_with_name` that returns a process (a non-`NULL` pointer) leaves
`CurrentProcess` unchanged, calls `asm_switch_context` not once, and leaves the
ready queue as it was with the returned PCB appended as its last element: the
PCBs already queued keep their places and their order. -/
theorem proc_new_does_not_run (cfg : Config) (heap_alloc : Nat → Int)
    (entry data stack_size : Nat) (stack_base : Int) (s : State)
    (hsome : (proc_new_with_name cfg heap_alloc entry data stack_size stack_base s).1 ≠ 0) :
    (proc_new_with_name cfg heap_alloc entry data stack_size stack_base s).2.CurrentProcess =
      s.CurrentProcess ∧
    switch_count (proc_new_with_name cfg heap_alloc entry data stack_size stack_base s).2.trace =
      switch_count s.trace ∧
    (proc_new_with_name cfg heap_alloc entry data stack_size stack_base s).2.ProcReadyList =
      s.ProcReadyList ++
        [(proc_new_with_name cfg heap_alloc entry data stack_size stack_base s).1] ∧
    (∀ i (h : i < s.ProcReadyList.length),
      (proc_new_with_name cfg heap_alloc entry data stack_size stack_base s).2.ProcReadyList[i]?
        = some (s.ProcReadyList.get ⟨i, h⟩)) ∧
    (proc_new_with_name cfg heap_alloc entry data stack_size stack_base s).2.ProcReadyList.getLast?
      = some (proc_new_with_name cfg heap_alloc entry data stack_size stack_base s).1 := by
  have hq := proc_new_with_name_enqueues cfg heap_alloc entry data stack_size stack_base s hsome
  refine ⟨proc_new_with_name_CurrentProcess cfg heap_alloc entry data stack_size stack_base s,
    proc_new_with_name_switch_count cfg heap_alloc entry data stack_size stack_base s, hq, ?_, ?_⟩
  · intro i h
    rw [hq, List.getElem?_append_left h]
    simp [List.getElem?_eq_getElem h]
  · rw [hq]
    simp

/-- Instance of the creation frame: a process is created on the heap while
`5` and `6` are ready and `100` runs. -/
theorem proc_new_does_not_run_witness :
    (proc_new_with_name cfgHeap alloc1000 1 2 0 0 state56).2.CurrentProcess = 100 ∧
    (proc_new_with_name cfgHeap alloc1000 1 2 0 0 state56).2.ProcReadyList = [5, 6, 1064] :=
  ⟨(proc_new_does_not_run cfgHeap alloc1000 1 2 0 0 state56 (by decide)).1,
   (proc_new_does_not_run cfgHeap alloc1000 1 2 0 0 state56 (by decide)).2.2.1⟩

/-! ## The scheduler invariant -/

/-- With no interrupt activity the polling loop drops the `NULL` entries at
the head of the ready queue and stops at the first process. -/
theorem sched_poll_quiet (isr : List (List Int)) (s s1 : State) (hquiet : quiet isr)
    (h : sched_poll isr s = some s1) :
    ∃ zs : List Int, (∀ z ∈ zs, z = 0) ∧
      s.ProcReadyList = zs ++ s1.CurrentProcess :: s1.ProcReadyList ∧
      s1.CurrentProcess ≠ 0 := by
  induction isr generalizing s with
  | nil =>
    simp only [sched_poll] at h
    split at h
    · rename_i hne
      cases h
      cases hq : s.ProcReadyList with
      | nil => simp [sched_dequeue, list_remHead, hq] at hne
      | cons x xs => exact ⟨[], by simp, by simp [sched_dequeue, list_remHead, hq], hne⟩
    · cases h
  | cons woken isr ih =>
    simp only [sched_poll] at h
    split at h
    · rename_i hne
      cases h
      cases hq : s.ProcReadyList with
      | nil => simp [sched_dequeue, list_remHead, hq] at hne
      | cons x xs => exact ⟨[], by simp, by simp [sched_dequeue, list_remHead, hq], hne⟩
    · rename_i hz
      have hw : woken = [] := hquiet woken (List.mem_cons_self _ _)
      subst hw
      obtain ⟨zs, hzs, hq1, hne⟩ := ih _ (fun w hw => hquiet w (List.mem_cons_of_mem _ hw)) h
      cases hq : s.ProcReadyList with
      | nil => simp [sched_idle, sched_dequeue, list_remHead, hq] at hq1
      | cons x xs =>
        have hx : x = 0 := by
          simpa [sched_dequeue, list_remHead, hq] using hz
        refine ⟨0 :: zs, ?_, ?_, hne⟩
        · intro z hz
          rcases List.mem_cons.1 hz with h0 | h0
          · exact h0
          · exact hzs z h0
        · simp only [sched_idle, sched_dequeue, list_remHead, hq, State.emit,
            List.append_nil, if_true] at hq1
          rw [hx, hq1]; rfl

theorem filter_nonnull_zeros (zs : List Int) (hzs : ∀ z ∈ zs, z = 0) :
    zs.filter (fun p => decide (p ≠ 0)) = [] := by
  rw [List.filter_eq_nil_iff]
  intro z hz
  simp [hzs z hz]

/-- `proc_schedule` with no interrupt activity brings a state whose ready queue
has no process twice to a state that satisfies the invariant. -/
theorem proc_schedule_inv (cfg : Config) (isr : List (List Int)) (s s1 : State)
    (hquiet : quiet isr) (hnodup : (s.ProcReadyList.filter (fun p => decide (p ≠ 0))).Nodup)
    (h : proc_schedule cfg isr s = some s1) : sched_inv s1 := by
  unfold proc_schedule at h
  simp only at h
  cases hp : sched_poll isr { s with irq := false } with
  | none => simp [hp] at h
  | some t =>
    simp only [hp, Option.some.injEq] at h
    obtain ⟨zs, hzs, hq, hne⟩ := sched_poll_quiet isr _ t hquiet hp
    simp only at hq
    have hc : s1.CurrentProcess = t.CurrentProcess := by
      rw [← h, (sched_switch_frame _ _ _).2.1]
    have hl : s1.ProcReadyList = t.ProcReadyList := by
      rw [← h, (sched_switch_frame _ _ _).1]
    rw [hq, List.filter_append, filter_nonnull_zeros zs hzs, List.nil_append,
      List.filter_cons_of_pos (by simpa using hne)] at hnodup
    obtain ⟨hnotin, hnd⟩ := List.nodup_cons.1 hnodup
    refine ⟨by rw [hc]; exact hne, ?_, by rw [hl]; exact hnd⟩
    rw [hc, hl]
    intro hmem
    exact hnotin (List.mem_filter.2 ⟨hmem, by simpa using hne⟩)

theorem sched_inv_reachable (cfg : Config) (hmain : cfg.MainProcess ≠ 0) (s : State)
    (h : Reachable cfg s) : sched_inv s := by
  induction h with
  | proc_init s0 =>
    refine ⟨hmain, ?_, ?_⟩
    · simp [proc_init, (proc_init_struct_frame _ _ _).1]
    · simp [proc_init, (proc_init_struct_frame _ _ _).1]
  | proc_new s heap_alloc entry data stack_size stack_base _ hfresh ih =>
    obtain ⟨hc, hnotin, hnd⟩ := ih
    rcases proc_new_cases cfg heap_alloc entry data stack_size stack_base s with
      ⟨size, b, hr⟩ | ⟨f, size, b, t, htq, htc, hr⟩
    · rw [hr]
      exact ⟨hc, hnotin, hnd⟩
    · have hq : (proc_new_with_name cfg heap_alloc entry data stack_size stack_base
          s).2.ProcReadyList = s.ProcReadyList ++
            [(proc_new_with_name cfg heap_alloc entry data stack_size stack_base s).1] := by
        rw [hr, (proc_new_setup_frame _ _ _ _ _ _ _).1, htq]
      have hcur := proc_new_with_name_CurrentProcess cfg heap_alloc entry data stack_size
        stack_base s
      unfold sched_inv
      rw [hq, hcur]
      by_cases hz : (proc_new_with_name cfg heap_alloc entry data stack_size stack_base s).1 = 0
      · rw [hz]
        refine ⟨hc, ?_, ?_⟩
        · simp only [List.mem_append, List.mem_singleton, not_or]
          exact ⟨hnotin, hc⟩
        · simpa [List.filter_append] using hnd
      · obtain ⟨hf1, hf2⟩ := hfresh hz
        refine ⟨hc, ?_, ?_⟩
        · simp only [List.mem_append, List.mem_singleton, not_or]
          exact ⟨hnotin, fun h => hf1 h.symm⟩
        · rw [List.filter_append, List.filter_cons_of_pos (by simpa using hz), List.filter_nil]
          refine List.Nodup.append hnd (List.nodup_singleton _) ?_
          intro x hx1 hx2
          rw [List.mem_singleton] at hx2
          subst hx2
          exact hf2 (List.mem_filter.1 hx1).1
  | proc_switch s s1 isr _ hquiet hrun ih =>
    obtain ⟨hc, hnotin, hnd⟩ := ih
    refine proc_schedule_inv cfg isr _ s1 hquiet ?_ hrun
    simp only [ATOMIC, SCHED_ENQUEUE]
    rw [List.filter_append, List.filter_cons_of_pos (by simpa using hc), List.filter_nil]
    refine List.Nodup.append hnd (List.nodup_singleton _) ?_
    intro x hx1 hx2
    rw [List.mem_singleton] at hx2
    subst hx2
    exact hnotin (List.mem_filter.1 hx1).1
  | proc_schedule s s1 isr _ hquiet hrun ih =>
    exact proc_schedule_inv cfg isr s s1 hquiet ih.2.2 hrun
  | proc_exit s s1 isr _ hquiet hrun ih =>
    refine proc_schedule_inv cfg isr _ s1 hquiet ?_ hrun
    rw [(proc_exit_teardown_frame cfg s).2.1]
    exact ih.2.2

/-- **C12** (scheduler state invariant).  In every state reached from
`proc_init` (the main process being a real PCB, not `NULL`) by any sequence of
`proc_new_with_name` (each on a fresh stack buffer), `proc_switch`,
`proc_schedule` and `proc_exit` calls, observed when the call returns, the
ready queue does not contain the PCB designated by `CurrentProcess`. -/
theorem ready_queue_excludes_current (cfg : Config) (hmain : cfg.MainProcess ≠ 0) (s : State)
    (h : Reachable cfg s) : s.CurrentProcess ∉ s.ProcReadyList :=
  (sched_inv_reachable cfg hmain s h).2.1

/-- Instance of the invariant: after `proc_init`, the creation of a process on
the heap and a yield of the main process, the new process runs and is not in the
ready queue. -/
theorem ready_queue_excludes_current_witness :
    ∃ s1, proc_switch cfgHeap []
        (proc_new_with_name cfgHeap alloc1000 1 2 0 0 (proc_init cfgHeap state0)).2 = some s1 ∧
      s1.CurrentProcess = 1064 ∧ s1.CurrentProcess ∉ s1.ProcReadyList := by
  obtain ⟨s1, h, hc, _⟩ := proc_switch_head cfgHeap []
    (proc_new_with_name cfgHeap alloc1000 1 2 0 0 (proc_init cfgHeap state0)).2 1064 []
    (by decide) (by decide)
  exact ⟨s1, h, hc, ready_queue_excludes_current cfgHeap (by decide) s1
    (Reachable.proc_switch _ s1 [] (Reachable.proc_new _ alloc1000 1 2 0 0
      (Reachable.proc_init state0) (by decide)) (by simp [quiet]) h)⟩

/-! ## The pool of emulated stacks -/

/-- **C13** (emulated-stack round trip), evaluated on the code.  In the hosted
build the pool holds the buffer at `5000`; `proc_new_with_name` removes it
(`stack_base = 5000`, PCB at `5048`, saved stack pointer `5032` once the initial
frame is pushed); the main process yields and the new process calls
`proc_exit`.  The address put back in the pool is
`CurrentProcess->stack - CONFIG_PROC_DEFSTACKSIZE / sizeof(cpustack_t)`, that is
`4968`, not the buffer `5000` that was taken out. -/
theorem proc_exit_emul_repools_other_address :
    (list_remHead statePool.StackFreeList).1 = 5000 ∧
    (proc_new_with_name cfgEmul allocFail 1 2 0 0 statePool).1 = 5048 ∧
    (proc_new_with_name cfgEmul allocFail 1 2 0 0 statePool).2.StackFreeList = [] ∧
    ((proc_new_with_name cfgEmul allocFail 1 2 0 0 statePool).2.pcb 5048).stack_base = 5000 ∧
    ((proc_new_with_name cfgEmul allocFail 1 2 0 0 statePool).2.pcb 5048).stack = 5032 ∧
    (((proc_switch cfgEmul [] (proc_new_with_name cfgEmul allocFail 1 2 0 0 statePool).2).bind
        (proc_exit cfgEmul [])).map (fun s => s.StackFreeList)) = some [4968] := by
  decide

/-! ## Placement of the PCB and of the stack -/

theorem pushed_slots_append (a b : List Event) :
    pushed_slots (a ++ b) = pushed_slots a ++ pushed_slots b := by
  induction a with
  | nil => simp [pushed_slots]
  | cons e a ih => cases e <;> simp [pushed_slots, ih]

theorem push_list_append (cfg : Config) (sp : Int) (m n : Nat) :
    push_list cfg sp (m + n) =
      push_list cfg sp m ++
        push_list cfg (if cfg.CPU_STACK_GROWS_UPWARD then sp + (m : Int) * cfg.sizeof_cpustack_t
          else sp - (m : Int) * cfg.sizeof_cpustack_t) n := by
  induction m generalizing sp with
  | zero => simp [push_list]
  | succ m ih =>
    rw [show m + 1 + n = (m + n) + 1 by omega]
    simp only [push_list, List.cons_append, List.cons.injEq, true_and]
    rw [ih]
    congr 2
    cases cfg.CPU_STACK_GROWS_UPWARD <;> simp <;> ring

/-- What `n` pushes do: the slots written, and the stack pointer afterwards. -/
theorem push_words_slots (cfg : Config) (proc : Int) (n : Nat) (s : State) :
    pushed_slots (push_words cfg proc n s).trace =
      pushed_slots s.trace ++ push_list cfg (s.pcb proc).stack n ∧
    ((push_words cfg proc n s).pcb proc).stack =
      (if cfg.CPU_STACK_GROWS_UPWARD then (s.pcb proc).stack + (n : Int) * cfg.sizeof_cpustack_t
        else (s.pcb proc).stack - (n : Int) * cfg.sizeof_cpustack_t) := by
  induction n generalizing s with
  | zero => simp [push_words, push_list]
  | succ n ih =>
    obtain ⟨h1, h2⟩ := ih (CPU_PUSH_WORD cfg proc s)
    simp only [push_words]
    rw [h1, h2]
    constructor
    · simp [CPU_PUSH_WORD, pushed_slots_append, pushed_slots, push_list]
    · cases h : cfg.CPU_STACK_GROWS_UPWARD <;> simp [CPU_PUSH_WORD, h] <;> ring

/-- The `j`-th slot written lies `j` (or `j + 1`) words beyond the starting
stack pointer, in the direction of growth. -/
theorem push_list_mem (cfg : Config) (sp : Int) (n : Nat) (x : Int)
    (hx : x ∈ push_list cfg sp n) :
    ∃ j : Nat, j < n ∧ x =
      (if cfg.CPU_STACK_GROWS_UPWARD then
        (if cfg.CPU_SP_ON_EMPTY_SLOT then sp + (j : Int) * cfg.sizeof_cpustack_t
          else sp + ((j : Int) + 1) * cfg.sizeof_cpustack_t)
      else
        (if cfg.CPU_SP_ON_EMPTY_SLOT then sp - (j : Int) * cfg.sizeof_cpustack_t
          else sp - ((j : Int) + 1) * cfg.sizeof_cpustack_t)) := by
  induction n generalizing sp with
  | zero => simp [push_list] at hx
  | succ n ih =>
    simp only [push_list, List.mem_cons] at hx
    rcases hx with hx | hx
    · refine ⟨0, by omega, ?_⟩
      rw [hx]
      cases cfg.CPU_STACK_GROWS_UPWARD <;> cases cfg.CPU_SP_ON_EMPTY_SLOT <;> simp
    · obtain ⟨j, hj, hxj⟩ := ih _ hx
      refine ⟨j + 1, by omega, ?_⟩
      rw [hxj]
      cases cfg.CPU_STACK_GROWS_UPWARD <;> cases cfg.CPU_SP_ON_EMPTY_SLOT <;>
        simp <;> ring

theorem push_list_length (cfg : Config) (sp : Int) (n : Nat) :
    (push_list cfg sp n).length = n := by
  induction n generalizing sp with
  | zero => rfl
  | succ n ih => simp [push_list, ih]

/-- `proc_new_with_name` after the stack is provided: a state in which the PCB
holds the initial stack pointer, then the pushes of the initial frame, then the
enqueue. -/
theorem proc_new_setup_steps (cfg : Config) (free_stack : Bool) (entry data stack_size : Nat)
    (stack_base : Int) (s : State) :
    ∃ s5 : State,
      (s5.pcb (proc_new_setup cfg free_stack entry data stack_size stack_base s).1).stack =
        initial_stack cfg stack_size stack_base ∧
      pushed_slots s5.trace = pushed_slots s.trace ∧
      proc_new_setup cfg free_stack entry data stack_size stack_base s =
        ((proc_new_setup cfg free_stack entry data stack_size stack_base s).1,
          ATOMIC (SCHED_ENQUEUE (proc_new_setup cfg free_stack entry data stack_size stack_base s).1)
            (push_words cfg (proc_new_setup cfg free_stack entry data stack_size stack_base s).1
              cfg.CPU_SAVED_REGS_CNT
              (push_words cfg (proc_new_setup cfg free_stack entry data stack_size stack_base s).1
                cfg.CPU_CALL_FRAME_WORDS
                (push_words cfg
                  (proc_new_setup cfg free_stack entry data stack_size stack_base s).1
                  cfg.CPU_CALL_FRAME_WORDS s5)))) := by
  refine ⟨_, ?_, ?_, rfl⟩
  · rw [proc_new_setup_fst]
    simp only [initial_stack]
    cases cfg.CPU_STACK_GROWS_UPWARD <;>
      cases cfg.CONFIG_KERN_HEAP <;> cases cfg.CONFIG_KERN_MONITOR <;> cases cfg.ARCH_EMUL <;>
      cases free_stack <;>
      simp only [Bool.or_self, Bool.or_true, Bool.or_false, Bool.true_or, Bool.and_true,
        Bool.and_false, Bool.false_and, Bool.true_and, if_true, if_false, Bool.false_eq_true,
        setPcb_pcb_same, proc_init_struct_pcb]
  · cases cfg.CONFIG_KERN_HEAP <;> cases cfg.CONFIG_KERN_MONITOR <;> cases cfg.ARCH_EMUL <;>
      cases free_stack <;>
      simp [(proc_init_struct_frame _ _ _).2.2.1, monitor_fill, pushed_slots_append,
        pushed_slots]

/-- The slots written by the initial frame of a new process. -/
theorem proc_new_setup_pushes (cfg : Config) (free_stack : Bool) (entry data stack_size : Nat)
    (stack_base : Int) (s : State) :
    pushed_slots (proc_new_setup cfg free_stack entry data stack_size stack_base s).2.trace =
      pushed_slots s.trace ++
        push_list cfg (initial_stack cfg stack_size stack_base) (initial_frame_words cfg) := by
  obtain ⟨s5, hst, htr, hrun⟩ := proc_new_setup_steps cfg free_stack entry data stack_size
    stack_base s
  rw [hrun]
  simp only [ATOMIC, SCHED_ENQUEUE]
  rw [(push_words_slots _ _ _ _).1, (push_words_slots _ _ _ _).2, (push_words_slots _ _ _ _).1,
    (push_words_slots _ _ _ _).2, (push_words_slots _ _ _ _).1, hst, htr]
  simp only [initial_frame_words, push_list_append, List.append_assoc]
  cases cfg.CPU_STACK_GROWS_UPWARD <;> simp <;> congr 1 <;> ring

theorem PROC_SIZE_WORDS_eq (cfg : Config) (hW : 0 < cfg.sizeof_cpustack_t) :
    PROC_SIZE_WORDS cfg =
      (cfg.sizeof_Process + (cfg.sizeof_cpustack_t - 1)) / cfg.sizeof_cpustack_t := by
  simp [PROC_SIZE_WORDS, ROUND2, Nat.mul_div_cancel _ hW]

/-- The words reserved for the PCB hold `sizeof(Process)` bytes. -/
theorem PROC_SIZE_WORDS_holds (cfg : Config) (hW : 0 < cfg.sizeof_cpustack_t) :
    cfg.sizeof_Process ≤ PROC_SIZE_WORDS cfg * cfg.sizeof_cpustack_t := by
  rw [PROC_SIZE_WORDS_eq cfg hW]
  have h1 := Nat.div_add_mod (cfg.sizeof_Process + (cfg.sizeof_cpustack_t - 1))
    cfg.sizeof_cpustack_t
  have h2 := Nat.mod_lt (cfg.sizeof_Process + (cfg.sizeof_cpustack_t - 1)) hW
  rw [Nat.mul_comm] at h1
  omega

/-- **C14**, as amended (PCB placement).  Let `W = sizeof(cpustack_t) > 0`
(a power of two or not) and let the buffer `[stack_base, stack_base + stack_size)`
have `stack_size >= PROC_SIZE_WORDS * W`.  For both directions of growth and
both stack-pointer conventions:
* the `PROC_SIZE_WORDS` words of the PCB hold `sizeof(Process)` bytes, start at
  a whole-word offset from `stack_base` and lie entirely inside the buffer;
* the initial frame is pushed from the initial stack pointer, and every word
  pushed from there, however many, lies outside the PCB;
* as long as no more than `stack_size / W - PROC_SIZE_WORDS` words are pushed
  (one fewer when the stack grows upward, where the first word above the PCB is
  skipped), every word pushed lies inside the buffer. -/
theorem pcb_placement (cfg : Config) (free_stack : Bool) (entry data stack_size : Nat)
    (stack_base : Int) (s : State)
    (hW : 0 < cfg.sizeof_cpustack_t)
    (hsize : PROC_SIZE_WORDS cfg * cfg.sizeof_cpustack_t ≤ stack_size) :
    cfg.sizeof_Process ≤ PROC_SIZE_WORDS cfg * cfg.sizeof_cpustack_t ∧
    (∃ off : Nat, (proc_new_setup cfg free_stack entry data stack_size stack_base s).1 =
      stack_base + (off : Int) * (cfg.sizeof_cpustack_t : Int)) ∧
    stack_base ≤ (proc_new_setup cfg free_stack entry data stack_size stack_base s).1 ∧
    (proc_new_setup cfg free_stack entry data stack_size stack_base s).1
      + (PROC_SIZE_WORDS cfg : Int) * (cfg.sizeof_cpustack_t : Int)
        ≤ stack_base + (stack_size : Int) ∧
    pushed_slots (proc_new_setup cfg free_stack entry data stack_size stack_base s).2.trace =
      pushed_slots s.trace ++
        push_list cfg (initial_stack cfg stack_size stack_base) (initial_frame_words cfg) ∧
    ∀ (k : Nat) (x : Int), x ∈ push_list cfg (initial_stack cfg stack_size stack_base) k →
      (x + (cfg.sizeof_cpustack_t : Int)
          ≤ (proc_new_setup cfg free_stack entry data stack_size stack_base s).1 ∨
        (proc_new_setup cfg free_stack entry data stack_size stack_base s).1
          + (PROC_SIZE_WORDS cfg : Int) * (cfg.sizeof_cpustack_t : Int) ≤ x) ∧
      (PROC_SIZE_WORDS cfg + k + (if cfg.CPU_STACK_GROWS_UPWARD then 1 else 0)
          ≤ stack_size / cfg.sizeof_cpustack_t →
        stack_base ≤ x ∧
        x + (cfg.sizeof_cpustack_t : Int) ≤ stack_base + (stack_size : Int)) := by
  have hPn : PROC_SIZE_WORDS cfg ≤ stack_size / cfg.sizeof_cpustack_t :=
    (Nat.le_div_iff_mul_le hW).2 hsize
  have hnW := Nat.div_mul_le_self stack_size cfg.sizeof_cpustack_t
  have hholds := PROC_SIZE_WORDS_holds cfg hW
  have hpush := proc_new_setup_pushes cfg free_stack entry data stack_size stack_base s
  have hfst := proc_new_setup_fst cfg free_stack entry data stack_size stack_base s
  refine ⟨hholds, ?_, ?_, ?_, hpush, ?_⟩
  · rw [hfst]
    cases cfg.CPU_STACK_GROWS_UPWARD
    · refine ⟨stack_size / cfg.sizeof_cpustack_t - PROC_SIZE_WORDS cfg, ?_⟩
      rw [Nat.cast_sub hPn]
      simp only [Bool.false_eq_true, if_false]
      ring
    · exact ⟨0, by simp⟩
  · generalize (proc_new_setup cfg free_stack entry data stack_size stack_base s).1 = proc
      at hfst ⊢
    generalize stack_size / cfg.sizeof_cpustack_t = n at hPn hnW hfst ⊢
    generalize PROC_SIZE_WORDS cfg = P at hPn hsize hfst ⊢
    generalize cfg.sizeof_cpustack_t = W at hW hPn hsize hnW hfst ⊢
    have hPnW : (P : Int) * (W : Int) ≤ (n : Int) * (W : Int) := by
      exact_mod_cast Nat.mul_le_mul_right W hPn
    subst hfst
    cases cfg.CPU_STACK_GROWS_UPWARD <;> simp only [Bool.false_eq_true, if_false, if_true] <;>
      linarith
  · generalize (proc_new_setup cfg free_stack entry data stack_size stack_base s).1 = proc
      at hfst ⊢
    generalize stack_size / cfg.sizeof_cpustack_t = n at hPn hnW hfst ⊢
    generalize PROC_SIZE_WORDS cfg = P at hPn hsize hfst ⊢
    generalize cfg.sizeof_cpustack_t = W at hW hPn hsize hnW hfst ⊢
    have hnW2 : (n : Int) * (W : Int) ≤ (stack_size : Int) := by exact_mod_cast hnW
    have hPW : (P : Int) * (W : Int) ≤ (stack_size : Int) := by exact_mod_cast hsize
    subst hfst
    cases cfg.CPU_STACK_GROWS_UPWARD <;> simp only [Bool.false_eq_true, if_false, if_true] <;>
      linarith
  · intro k x hx
    obtain ⟨j, hj, hxj⟩ := push_list_mem cfg _ k x hx
    simp only [initial_stack] at hxj
    generalize (proc_new_setup cfg free_stack entry data stack_size stack_base s).1 = proc
      at hfst ⊢
    generalize stack_size / cfg.sizeof_cpustack_t = n at hPn hnW hfst hxj ⊢
    generalize PROC_SIZE_WORDS cfg = P at hPn hsize hfst hxj ⊢
    generalize cfg.sizeof_cpustack_t = W at hW hPn hsize hnW hfst hxj ⊢
    have hPnW : (P : Int) * (W : Int) ≤ (n : Int) * (W : Int) := by
      exact_mod_cast Nat.mul_le_mul_right W hPn
    have hnW2 : (n : Int) * (W : Int) ≤ (stack_size : Int) := by exact_mod_cast hnW
    have hW0 : (0 : Int) < (W : Int) := by exact_mod_cast hW
    have hj0 : (0 : Int) ≤ (j : Int) * (W : Int) :=
      mul_nonneg (by exact_mod_cast Nat.zero_le j) (le_of_lt hW0)
    have hP0 : (0 : Int) ≤ (P : Int) * (W : Int) :=
      mul_nonneg (by exact_mod_cast Nat.zero_le P) (le_of_lt hW0)
    subst hfst
    subst hxj
    cases hU : cfg.CPU_STACK_GROWS_UPWARD <;> cases hE : cfg.CPU_SP_ON_EMPTY_SLOT <;>
      simp only [Bool.false_eq_true, if_false, if_true] <;>
      refine ⟨?_, ?_⟩
    all_goals first
      | (right; linarith)
      | (left; linarith)
      | (intro hcap
         have hcap2 : P + (j + 1) ≤ n := by omega
         have hcapW : ((P + (j + 1) : Nat) : Int) * (W : Int) ≤ (n : Int) * (W : Int) := by
           exact_mod_cast Nat.mul_le_mul_right W hcap2
         push_cast at hcapW
         constructor <;> linarith)
      | (intro hcap
         have hcap2 : P + (j + 2) ≤ n := by omega
         have hcapW : ((P + (j + 2) : Nat) : Int) * (W : Int) ≤ (n : Int) * (W : Int) := by
           exact_mod_cast Nat.mul_le_mul_right W hcap2
         push_cast at hcapW
         constructor <;> linarith)

/-- Instance of the placement: a buffer of 80 bytes at `2000` in the build
`cfgHeap`; the PCB lies at `2064` and the four words of the initial frame
below it, inside the buffer. -/
theorem pcb_placement_witness :
    (2000 : Int) ≤ (proc_new_setup cfgHeap false 1 2 80 2000 state0).1 ∧
    ∀ x ∈ push_list cfgHeap (initial_stack cfgHeap 80 2000) 4,
      (2000 : Int) ≤ x ∧ x + 4 ≤ 2000 + 80 :=
  ⟨(pcb_placement cfgHeap false 1 2 80 2000 state0 (by decide) (by decide)).2.2.1,
   fun x hx => ((pcb_placement cfgHeap false 1 2 80 2000 state0 (by decide)
      (by decide)).2.2.2.2.2 4 x hx).2 (by decide)⟩

/-- **C14**, as stated, fails on the code: in the build `cfgHeap` (`W = 4`,
`PROC_SIZE_WORDS = 4`) the caller's buffer `[2000, 2016)` has
`stack_size = PROC_SIZE_WORDS * W`; the PCB fills it, and the four words of the
initial frame that `proc_new_with_name` pushes are stored at `1996 .. 1984`,
below the buffer. -/
theorem initial_frame_leaves_small_buffer :
    PROC_SIZE_WORDS cfgHeap * cfgHeap.sizeof_cpustack_t ≤ 16 ∧
    (proc_new_with_name cfgHeap alloc1000 1 2 16 2000 state0).1 = 2000 ∧
    pushed_slots (proc_new_with_name cfgHeap alloc1000 1 2 16 2000 state0).2.trace
      = [1996, 1992, 1988, 1984] ∧
    ∀ x ∈ pushed_slots (proc_new_with_name cfgHeap alloc1000 1 2 16 2000 state0).2.trace,
      ¬ ((2000 : Int) ≤ x ∧ x + 4 ≤ 2000 + 16) := by
  decide

/-! ## The state of a fresh PCB -/

/-- **C15** (fresh PCB state).  For every `proc_new_with_name` that returns a
process, whatever the memory of the stack buffer held before, the returned PCB
has `user_data` equal to the `data` argument and, in the builds that have the
field, `sig_recv = 0` (`CONFIG_KERN_SIGNALS`), `forbid_cnt = 0`
(`CONFIG_KERN_PREEMPTIVE`) and `flags` (`CONFIG_KERN_HEAP`) equal to
`PF_FREESTACK` exactly when the call itself allocated the stack, that is when
it is not the hosted build and no buffer was passed, and to `0` otherwise. -/
theorem proc_new_fresh_pcb (cfg : Config) (heap_alloc : Nat → Int)
    (entry data stack_size : Nat) (stack_base : Int) (s : State)
    (hsome : (proc_new_with_name cfg heap_alloc entry data stack_size stack_base s).1 ≠ 0) :
    ((proc_new_with_name cfg heap_alloc entry data stack_size stack_base s).2.pcb
      (proc_new_with_name cfg heap_alloc entry data stack_size stack_base s).1).user_data
        = data ∧
    (cfg.CONFIG_KERN_SIGNALS = true →
      ((proc_new_with_name cfg heap_alloc entry data stack_size stack_base s).2.pcb
        (proc_new_with_name cfg heap_alloc entry data stack_size stack_base s).1).sig_recv
          = 0) ∧
    (cfg.CONFIG_KERN_PREEMPTIVE = true →
      ((proc_new_with_name cfg heap_alloc entry data stack_size stack_base s).2.pcb
        (proc_new_with_name cfg heap_alloc entry data stack_size stack_base s).1).forbid_cnt
          = 0) ∧
    (cfg.CONFIG_KERN_HEAP = true →
      ((proc_new_with_name cfg heap_alloc entry data stack_size stack_base s).2.pcb
        (proc_new_with_name cfg heap_alloc entry data stack_size stack_base s).1).flags
          = if cfg.ARCH_EMUL = false ∧ stack_base = 0 then cfg.PF_FREESTACK else 0) := by
  cases hemul : cfg.ARCH_EMUL
  · by_cases hb : cfg.CONFIG_KERN_HEAP = false ∨ stack_base ≠ 0
    · rw [proc_new_caller_stack cfg heap_alloc entry data stack_size stack_base s hemul hb]
      obtain ⟨st, hpcb⟩ := proc_new_setup_pcb cfg false entry data stack_size stack_base s
      rw [hpcb]
      refine ⟨rfl, fun h => by simp [h], fun h => by simp [h], fun h => ?_⟩
      rcases hb with hb | hb
      · rw [h] at hb; cases hb
      · simp [h, hb]
    · simp only [not_or, Bool.not_eq_false, not_not] at hb
      obtain ⟨hheap, hz⟩ := hb
      subst hz
      by_cases hfail : heap_alloc (if stack_size = 0 then
          (cfg.CONFIG_PROC_DEFSTACKSIZE + cfg.sizeof_Process) % 2 ^ cfg.SIZE_T_BITS
          else stack_size) = 0
      · rw [proc_new_heap_fail cfg heap_alloc entry data stack_size s hemul hheap hfail] at hsome
        exact absurd rfl hsome
      · rw [proc_new_heap_ok cfg heap_alloc entry data stack_size s hemul hheap hfail]
        obtain ⟨st, hpcb⟩ := proc_new_setup_pcb cfg true entry data
          (if stack_size = 0 then
            (cfg.CONFIG_PROC_DEFSTACKSIZE + cfg.sizeof_Process) % 2 ^ cfg.SIZE_T_BITS
            else stack_size)
          (heap_alloc (if stack_size = 0 then
            (cfg.CONFIG_PROC_DEFSTACKSIZE + cfg.sizeof_Process) % 2 ^ cfg.SIZE_T_BITS
            else stack_size))
          (s.emit (Event.heap_alloc (if stack_size = 0 then
            (cfg.CONFIG_PROC_DEFSTACKSIZE + cfg.sizeof_Process) % 2 ^ cfg.SIZE_T_BITS
            else stack_size)
            (heap_alloc (if stack_size = 0 then
              (cfg.CONFIG_PROC_DEFSTACKSIZE + cfg.sizeof_Process) % 2 ^ cfg.SIZE_T_BITS
              else stack_size))))
        rw [hpcb]
        exact ⟨rfl, fun h => by simp [h], fun h => by simp [h], fun h => by simp [h]⟩
  · rw [proc_new_emul cfg heap_alloc entry data stack_size stack_base s hemul]
    obtain ⟨st, hpcb⟩ := proc_new_setup_pcb cfg false entry data cfg.CONFIG_PROC_DEFSTACKSIZE
      (list_remHead s.StackFreeList).1
      (PROC_ATOMIC (fun t => { t with StackFreeList := (list_remHead t.StackFreeList).2 }) s)
    rw [hpcb]
    exact ⟨rfl, fun h => by simp [h], fun h => by simp [h], fun h => by simp [h]⟩

/-- Instance of the fresh PCB: a process created on the heap in the build
`cfgHeap` has `flags = PF_FREESTACK`. -/
theorem proc_new_fresh_pcb_witness :
    ((proc_new_with_name cfgHeap alloc1000 1 2 0 0 state0).2.pcb
      (proc_new_with_name cfgHeap alloc1000 1 2 0 0 state0).1).user_data = 2 ∧
    ((proc_new_with_name cfgHeap alloc1000 1 2 0 0 state0).2.pcb
      (proc_new_with_name cfgHeap alloc1000 1 2 0 0 state0).1).flags = 1 :=
  ⟨(proc_new_fresh_pcb cfgHeap alloc1000 1 2 0 0 state0 (by decide)).1,
   (proc_new_fresh_pcb cfgHeap alloc1000 1 2 0 0 state0 (by decide)).2.2.2 rfl⟩

/-! ## The interrupt mask in `proc_schedule` -/

/-- The polling loop, entered with interrupts masked: every dequeue attempt is
made with interrupts masked, every idle wait with interrupts enabled, and the
loop is left with interrupts masked. -/
theorem sched_poll_irq (isr : List (List Int)) (s s1 : State) (hirq : s.irq = false)
    (h : sched_poll isr s = some s1) :
    ∃ added : List Event, s1.trace = s.trace ++ added ∧
      (∀ e ∈ added, e = Event.remHead false ∨ e = Event.idle true) ∧
      s1.irq = false := by
  induction isr generalizing s with
  | nil =>
    simp only [sched_poll] at h
    split at h
    · cases h
      exact ⟨[Event.remHead false], by simp [sched_dequeue, hirq], by simp,
        by simp [sched_dequeue, hirq]⟩
    · cases h
  | cons woken isr ih =>
    simp only [sched_poll] at h
    split at h
    · cases h
      exact ⟨[Event.remHead false], by simp [sched_dequeue, hirq], by simp,
        by simp [sched_dequeue, hirq]⟩
    · obtain ⟨added, htr, hev, hq⟩ := ih (sched_idle woken (sched_dequeue s)) rfl h
      refine ⟨Event.remHead false :: Event.idle true :: added, ?_, ?_, hq⟩
      · rw [htr]
        simp [sched_idle, sched_dequeue, hirq]
      · intro e he
        simp only [List.mem_cons] at he
        rcases he with he | he | he
        · exact Or.inl he
        · exact Or.inr he
        · exact hev e he

/-- The polling loop of `proc_schedule` returns exactly when it finds a
process, and then in the state `sched_poll_run` describes. -/
theorem sched_poll_eq_run (isr : List (List Int)) (s : State) :
    sched_poll isr s =
      if (sched_poll_run isr s).CurrentProcess ≠ 0 then some (sched_poll_run isr s)
      else none := by
  induction isr generalizing s with
  | nil => rfl
  | cons woken isr ih =>
    simp only [sched_poll, sched_poll_run]
    by_cases h : (sched_dequeue s).CurrentProcess ≠ 0
    · rw [if_pos h, if_pos h, if_pos h]
    · rw [if_neg h, if_neg h]
      exact ih _

/-- The trace of the polling loop, entered with interrupts masked, whether it
exits or not: rounds of a failed dequeue attempt with interrupts masked followed
by an idle wait with interrupts enabled, one round for each wait, and then one
more masked dequeue attempt. -/
theorem sched_poll_run_trace (isr : List (List Int)) (s : State) (hirq : s.irq = false) :
    ∃ n, n ≤ isr.length ∧
      (sched_poll_run isr s).trace = s.trace ++ idle_rounds n ++ [Event.remHead false] ∧
      (sched_poll_run isr s).irq = false ∧
      ((sched_poll_run isr s).CurrentProcess = 0 → n = isr.length) := by
  induction isr generalizing s with
  | nil =>
    exact ⟨0, Nat.le_refl _, by simp [sched_poll_run, sched_dequeue, hirq, idle_rounds],
      by simp [sched_poll_run, sched_dequeue, hirq], fun _ => rfl⟩
  | cons woken isr ih =>
    simp only [sched_poll_run]
    by_cases h : (sched_dequeue s).CurrentProcess ≠ 0
    · rw [if_pos h]
      exact ⟨0, Nat.zero_le _, by simp [sched_dequeue, hirq, idle_rounds],
        by simp [sched_dequeue, hirq], fun h0 => absurd h0 h⟩
    · rw [if_neg h]
      obtain ⟨n, hn, htr, hq, hblk⟩ := ih (sched_idle woken (sched_dequeue s)) rfl
      refine ⟨n + 1, by simpa using hn, ?_, hq, fun h0 => by simp [hblk h0]⟩
      rw [htr]
      simp [sched_idle, sched_dequeue, hirq, idle_rounds]

/-- **C16** (interrupt-mask protocol of `proc_schedule`).  For every call of
`proc_schedule`, whether it returns or idles for ever:
(1), (2) the trace of its polling loop is exactly `n` rounds of one dequeue
attempt made with interrupts masked and one idle wait made with interrupts
enabled, followed by one more dequeue attempt made with interrupts masked;
`n`, the number of waits, is at most the length of the interrupt script and is
that length when the loop finds no process;
(3) the call returns exactly when the loop finds a process, the interrupt flag
is put back to its value on entry at the exit of the loop, before the context
switch, and has that value on return; the call adds nothing else to the trace
than the context switch, if there is one.  So, called with interrupts enabled,
it has them enabled again before the context switch and on return. -/
theorem proc_schedule_irq_protocol (cfg : Config) (isr : List (List Int)) (s : State) :
    (∃ n, n ≤ isr.length ∧
      (sched_poll_run isr { s with irq := false }).trace =
        s.trace ++ idle_rounds n ++ [Event.remHead false] ∧
      ((sched_poll_run isr { s with irq := false }).CurrentProcess = 0 → n = isr.length)) ∧
    (sched_poll_run isr { s with irq := false }).irq = false ∧
    proc_schedule cfg isr s =
      (if (sched_poll_run isr { s with irq := false }).CurrentProcess ≠ 0 then
        some (sched_switch cfg s.CurrentProcess
          { sched_poll_run isr { s with irq := false } with irq := s.irq })
      else none) ∧
    (∀ s1, proc_schedule cfg isr s = some s1 →
      s1.irq = s.irq ∧
      (s.irq = true →
        ({ sched_poll_run isr { s with irq := false } with irq := s.irq } : State).irq = true ∧
        s1.irq = true) ∧
      ∃ n, n ≤ isr.length ∧
        s1.trace = s.trace ++ idle_rounds n ++ [Event.remHead false] ++
          (if s1.CurrentProcess ≠ s.CurrentProcess then
            [Event.asm_switch_context s1.CurrentProcess
              (if s.CurrentProcess ≠ 0 then some s.CurrentProcess else none)]
          else [])) := by
  obtain ⟨n, hn, htr, hq, hblk⟩ := sched_poll_run_trace isr { s with irq := false } rfl
  have hrun : proc_schedule cfg isr s =
      (if (sched_poll_run isr { s with irq := false }).CurrentProcess ≠ 0 then
        some (sched_switch cfg s.CurrentProcess
          { sched_poll_run isr { s with irq := false } with irq := s.irq })
      else none) := by
    unfold proc_schedule
    simp only
    rw [sched_poll_eq_run]
    by_cases h : (sched_poll_run isr { s with irq := false }).CurrentProcess ≠ 0
    · rw [if_pos h, if_pos h]
    · rw [if_neg h, if_neg h]
  refine ⟨⟨n, hn, htr, hblk⟩, hq, hrun, ?_⟩
  intro s1 hret
  rw [hrun] at hret
  split at hret
  · simp only [Option.some.injEq] at hret
    have hirq1 : s1.irq = s.irq := by
      rw [← hret, (sched_switch_frame _ _ _).2.2.1]
    have hcur : s1.CurrentProcess =
        (sched_poll_run isr { s with irq := false }).CurrentProcess := by
      rw [← hret, (sched_switch_frame _ _ _).2.1]
    refine ⟨hirq1, fun h => ⟨h, by rw [hirq1, h]⟩, n, hn, ?_⟩
    rw [hcur, ← hret]
    simp only at htr
    unfold sched_switch
    split
    · rw [(asm_switch_context_frame _ _ _).2.2.2.2.2]
      cases cfg.CONFIG_KERN_PREEMPTIVE <;> simp [htr]
    · simp [htr]
  · cases hret

/-- Instances of the protocol in which the idle loop is entered.  Process
`100` calls `proc_schedule` with an empty ready queue: when nothing happens
during the first wait and `7` is made ready during the second, the loop makes
two rounds and a last dequeue attempt, and the call returns with interrupts
enabled; when nothing ever happens, the call does not return and both waits of
the script were made with interrupts enabled. -/
theorem proc_schedule_irq_protocol_witness :
    (sched_poll_run [[], [7]] { state0 with irq := false }).trace =
      [Event.remHead false, Event.idle true, Event.remHead false, Event.idle true,
        Event.remHead false] ∧
    (∃ s1, proc_schedule cfgHeap [[], [7]] state0 = some s1 ∧ s1.irq = true) ∧
    proc_schedule cfgHeap [[], []] state0 = none ∧
    (sched_poll_run [[], []] { state0 with irq := false }).trace =
      state0.trace ++ idle_rounds 2 ++ [Event.remHead false] := by
  obtain ⟨_, _, hrun, hret⟩ := proc_schedule_irq_protocol cfgHeap [[], [7]] state0
  obtain ⟨⟨n, _, htr, hblk⟩, _, hnone, _⟩ := proc_schedule_irq_protocol cfgHeap [[], []] state0
  have hn : n = 2 := hblk (by decide)
  subst hn
  refine ⟨by decide, ?_, ?_, htr⟩
  · rw [if_pos (by decide)] at hrun
    exact ⟨_, hrun, (hret _ hrun).1⟩
  · rw [hnone]
    exact if_neg (by decide)

/-! ## Waking up from the idle loop -/

/-- The polling loop on an empty ready queue, when the interrupt handlers stay
quiet for `k` waits and the handler of the next wait makes exactly `p` ready:
after that wait one more dequeue attempt is made, it yields `p`, and the loop
ends. -/
theorem sched_poll_wake (k : Nat) (p : Int) (rest : List (List Int)) (s : State)
    (hq : s.ProcReadyList = []) (hirq : s.irq = false) (hp : p ≠ 0) :
    sched_poll (List.replicate k [] ++ [p] :: rest) s =
      some { s with CurrentProcess := p, ProcReadyList := [], irq := false,
                    trace := s.trace ++ idle_rounds (k + 1) ++ [Event.remHead false] } := by
  induction k generalizing s with
  | zero =>
    simp only [List.replicate, List.nil_append, sched_poll]
    rw [if_neg (by simp [sched_dequeue, list_remHead, hq])]
    rw [sched_poll_head rest _ p [] (by simp [sched_idle, sched_dequeue, list_remHead, hq]) hp]
    simp [sched_idle, sched_dequeue, list_remHead, hq, hirq, idle_rounds, State.emit]
  | succ k ih =>
    rw [List.replicate_succ, List.cons_append]
    simp only [sched_poll]
    rw [if_neg (by simp [sched_dequeue, list_remHead, hq])]
    rw [ih _ (by simp [sched_idle, sched_dequeue, list_remHead, hq]) rfl]
    simp [sched_idle, sched_dequeue, list_remHead, hq, hirq, idle_rounds, State.emit]

/-- **C17** (idle wake-up).  Let `proc_schedule` be called with an empty ready
queue, so that it enters its idle loop; the interrupt handlers stay quiet for
`k` waits and, during the next wait, a handler enqueues exactly one process
`p`.  Then the very next dequeue attempt yields `p` and the loop exits (the
trace of the loop is `k + 1` rounds of failed attempt and wait, then a single
attempt), and `proc_schedule` returns with `CurrentProcess = p` and an empty
ready queue, whatever happens or does not happen afterwards (`rest`). -/
theorem idle_wakeup (cfg : Config) (s : State) (k : Nat) (p : Int) (rest : List (List Int))
    (hq : s.ProcReadyList = []) (hp : p ≠ 0) :
    ∃ t s1, sched_poll (List.replicate k [] ++ [p] :: rest) { s with irq := false } = some t ∧
      t.trace = s.trace ++ idle_rounds (k + 1) ++ [Event.remHead false] ∧
      t.CurrentProcess = p ∧
      proc_schedule cfg (List.replicate k [] ++ [p] :: rest) s = some s1 ∧
      s1.CurrentProcess = p ∧ s1.ProcReadyList = [] := by
  have hpoll := sched_poll_wake k p rest { s with irq := false } hq rfl hp
  have hrun : ∃ s1, proc_schedule cfg (List.replicate k [] ++ [p] :: rest) s = some s1 ∧
      s1.CurrentProcess = p ∧ s1.ProcReadyList = [] := by
    unfold proc_schedule
    simp only [hpoll]
    exact ⟨_, rfl, by rw [(sched_switch_frame _ _ _).2.1], by rw [(sched_switch_frame _ _ _).1]⟩
  obtain ⟨s1, h1, h2, h3⟩ := hrun
  exact ⟨_, s1, hpoll, rfl, rfl, h1, h2, h3⟩

/-- Instance of the wake-up: process `100` waits in `proc_schedule`; nothing
happens during the first wait and process `7` is made ready during the second. -/
theorem idle_wakeup_witness :
    ∃ s1, proc_schedule cfgHeap [[], [7]] state0 = some s1 ∧ s1.CurrentProcess = 7 ∧
      s1.ProcReadyList = [] := by
  obtain ⟨_, s1, _, _, _, h, hc, hl⟩ := idle_wakeup cfgHeap state0 1 7 [] rfl (by decide)
  exact ⟨s1, h, hc, hl⟩

/-! ## The time slice -/

theorem sched_poll_frame (isr : List (List Int)) (s s1 : State)
    (h : sched_poll isr s = some s1) :
    s1.Quantum = s.Quantum ∧ s1.pcb = s.pcb ∧ s1.sp = s.sp ∧
      s1.StackFreeList = s.StackFreeList := by
  induction isr generalizing s with
  | nil =>
    simp only [sched_poll] at h
    split at h
    · cases h
      exact ⟨rfl, rfl, rfl, rfl⟩
    · cases h
  | cons woken isr ih =>
    simp only [sched_poll] at h
    split at h
    · cases h
      exact ⟨rfl, rfl, rfl, rfl⟩
    · obtain ⟨h1, h2, h3, h4⟩ := ih _ h
      exact ⟨h1, h2, h3, h4⟩

/-- **C18**, as amended (time-slice reset, preemptive build).  For every call
of `proc_schedule` that returns: when the process selected is not the one that
was current on entry, `Quantum` is `CONFIG_KERN_QUANTUM` (stored in the 16-bit
counter, so equal to it when it is below `2 ^ 16`) as the new process resumes,
whatever its value on entry; when the process selected is the one that was
current, no switch takes place and `Quantum` keeps the value it had on entry. -/
theorem proc_schedule_quantum (cfg : Config) (isr : List (List Int)) (s s1 : State)
    (hpre : cfg.CONFIG_KERN_PREEMPTIVE = true)
    (hret : proc_schedule cfg isr s = some s1) :
    (s1.CurrentProcess ≠ s.CurrentProcess →
      s1.Quantum = cfg.CONFIG_KERN_QUANTUM % 2 ^ 16 ∧
      (cfg.CONFIG_KERN_QUANTUM < 2 ^ 16 → s1.Quantum = cfg.CONFIG_KERN_QUANTUM)) ∧
    (s1.CurrentProcess = s.CurrentProcess → s1.Quantum = s.Quantum) := by
  unfold proc_schedule at hret
  simp only at hret
  cases hp : sched_poll isr { s with irq := false } with
  | none => simp [hp] at hret
  | some t =>
    simp only [hp, Option.some.injEq] at hret
    have hQ : t.Quantum = s.Quantum := (sched_poll_frame isr _ t hp).1
    have hc : s1.CurrentProcess = t.CurrentProcess := by
      rw [← hret, (sched_switch_frame _ _ _).2.1]
    constructor
    · intro hne
      rw [hc] at hne
      have hq : s1.Quantum = cfg.CONFIG_KERN_QUANTUM % 2 ^ 16 := by
        rw [← hret]
        simp [sched_switch, hne, hpre, asm_switch_context_frame]
      exact ⟨hq, fun hlt => by rw [hq, Nat.mod_eq_of_lt hlt]⟩
    · intro heq
      rw [hc] at heq
      rw [← hret]
      simp [sched_switch, heq, hQ]

/-- Instance of the time-slice reset: process `100` calls `proc_schedule`
while `5` heads the ready queue; `Quantum` is `50` when `5` resumes. -/
theorem proc_schedule_quantum_witness :
    ∃ s1, proc_schedule cfgHeap [] state56 = some s1 ∧ s1.CurrentProcess = 5 ∧
      s1.Quantum = 50 := by
  obtain ⟨s1, h, hc, _⟩ := proc_schedule_head_result cfgHeap [] state56 5 [6] rfl (by decide)
  exact ⟨s1, h, hc,
    ((proc_schedule_quantum cfgHeap [] state56 s1 rfl h).1 (by rw [hc]; decide)).2 (by decide)⟩

/-- **C18**, as stated, fails on the code: in the preemptive build `cfgHeap`
(`CONFIG_KERN_QUANTUM = 50`), the process `100` runs alone with `Quantum = 0`
and yields; `proc_switch` enters `proc_schedule` in the state `stateSelf`, the
scheduler selects `100` again, and `Quantum` is still `0` when it resumes. -/
theorem self_switch_keeps_quantum :
    cfgHeap.CONFIG_KERN_PREEMPTIVE = true ∧ cfgHeap.CONFIG_KERN_QUANTUM = 50 ∧
    ((proc_schedule cfgHeap [] stateSelf).map (fun s => (s.CurrentProcess, s.Quantum)))
      = some (100, 0) ∧
    ((proc_switch cfgHeap [] state0).map (fun s => (s.CurrentProcess, s.Quantum)))
      = some (100, 0) := by
  decide

/-! ## The frame of the gate counter -/

theorem proc_schedule_forbid_cnt (cfg : Config) (isr : List (List Int)) (s s1 : State)
    (hret : proc_schedule cfg isr s = some s1) (a : Int) :
    (s1.pcb a).forbid_cnt = (s.pcb a).forbid_cnt := by
  unfold proc_schedule at hret
  simp only at hret
  cases hp : sched_poll isr { s with irq := false } with
  | none => simp [hp] at hret
  | some t =>
    simp only [hp, Option.some.injEq] at hret
    have hpcb : t.pcb = s.pcb := (sched_poll_frame isr _ t hp).2.1
    rw [← hret, sched_switch_forbid_cnt]
    simp only
    rw [hpcb]

theorem proc_switch_forbid_cnt (cfg : Config) (isr : List (List Int)) (s s1 : State)
    (hret : proc_switch cfg isr s = some s1) (a : Int) :
    (s1.pcb a).forbid_cnt = (s.pcb a).forbid_cnt := by
  unfold proc_switch at hret
  rw [proc_schedule_forbid_cnt cfg isr _ s1 hret a]
  rfl

theorem run_sched_forbid_cnt (cfg : Config) (a : Int) (ops : List SchedOp) (s s1 : State)
    (hrun : run_sched cfg ops s = some s1)
    (hothers : gate_calls_by_others cfg a ops s = true) :
    (s1.pcb a).forbid_cnt = (s.pcb a).forbid_cnt := by
  induction ops generalizing s with
  | nil =>
    simp only [run_sched, Option.some.injEq] at hrun
    rw [hrun]
  | cons op ops ih =>
    simp only [run_sched] at hrun
    simp only [gate_calls_by_others, Bool.and_eq_true, Bool.or_eq_true, Bool.not_eq_true',
      decide_eq_true_eq] at hothers
    obtain ⟨hgate, hrest⟩ := hothers
    cases hop : op.run cfg s with
    | none => simp [hop] at hrun
    | some t =>
      simp only [hop] at hrun hrest
      rw [ih t hrun hrest]
      cases op with
      | proc_switch isr => exact proc_switch_forbid_cnt cfg isr s t hop a
      | proc_schedule isr => exact proc_schedule_forbid_cnt cfg isr s t hop a
      | proc_forbid =>
        simp only [SchedOp.run, Option.some.injEq] at hop
        have hne : a ≠ s.CurrentProcess := by
          rcases hgate with h | h
          · cases h
          · exact fun h2 => h h2.symm
        rw [← hop]
        simp [proc_forbid, setPcb_pcb_other _ _ _ _ hne]
      | proc_permit =>
        simp only [SchedOp.run, Option.some.injEq] at hop
        have hne : a ≠ s.CurrentProcess := by
          rcases hgate with h | h
          · cases h
          · exact fun h2 => h h2.symm
        rw [← hop]
        simp [proc_permit, setPcb_pcb_other _ _ _ _ hne]

/-- **C19** (gate counter frame).  `proc_forbid` and `proc_permit` change
nothing but the `forbid_cnt` of the current process: `CurrentProcess`, the
ready queue, the other fields of its PCB and every other PCB are as before.
`proc_schedule` and `proc_switch` change the `forbid_cnt` of no process.
Hence, over any sequence of switches, scheduler calls and gate calls during
which the gate is only ever called while other processes run, the nesting depth
of a process `a` does not change: switched out with depth `n`, it has depth `n`
when it is next current. -/
theorem gate_counter_frame (cfg : Config) (s : State) :
    ((proc_forbid s).CurrentProcess = s.CurrentProcess ∧
      (proc_forbid s).ProcReadyList = s.ProcReadyList ∧
      (proc_forbid s).pcb s.CurrentProcess =
        { s.pcb s.CurrentProcess with
          forbid_cnt := (s.pcb s.CurrentProcess).forbid_cnt + 1 } ∧
      ∀ a, a ≠ s.CurrentProcess → (proc_forbid s).pcb a = s.pcb a) ∧
    ((proc_permit s).CurrentProcess = s.CurrentProcess ∧
      (proc_permit s).ProcReadyList = s.ProcReadyList ∧
      (proc_permit s).pcb s.CurrentProcess =
        { s.pcb s.CurrentProcess with
          forbid_cnt := (s.pcb s.CurrentProcess).forbid_cnt - 1 } ∧
      ∀ a, a ≠ s.CurrentProcess → (proc_permit s).pcb a = s.pcb a) ∧
    (∀ isr s1, proc_schedule cfg isr s = some s1 →
      ∀ a, (s1.pcb a).forbid_cnt = (s.pcb a).forbid_cnt) ∧
    (∀ isr s1, proc_switch cfg isr s = some s1 →
      ∀ a, (s1.pcb a).forbid_cnt = (s.pcb a).forbid_cnt) ∧
    (∀ (a : Int) (ops : List SchedOp) (s1 : State), run_sched cfg ops s = some s1 →
      gate_calls_by_others cfg a ops s = true →
      (s1.pcb a).forbid_cnt = (s.pcb a).forbid_cnt) := by
  refine ⟨⟨rfl, rfl, ?_, ?_⟩, ⟨rfl, rfl, ?_, ?_⟩, ?_, ?_, ?_⟩
  · simp [proc_forbid]
  · intro a ha
    simp [proc_forbid, setPcb_pcb_other _ _ _ _ ha]
  · simp [proc_permit]
  · intro a ha
    simp [proc_permit, setPcb_pcb_other _ _ _ _ ha]
  · intro isr s1 h a
    exact proc_schedule_forbid_cnt cfg isr s s1 h a
  · intro isr s1 h a
    exact proc_switch_forbid_cnt cfg isr s s1 h a
  · intro a ops s1 hrun hothers
    exact run_sched_forbid_cnt cfg a ops s s1 hrun hothers

/-- Instance of the frame: `100` yields with depth `0`; `5` runs, calls
`proc_forbid` and yields, `6` runs and yields; `100` runs again with depth `0`. -/
theorem gate_counter_frame_witness :
    ∃ s1, run_sched cfgHeap roundOfYields state56 = some s1 ∧
      (s1.pcb 100).forbid_cnt = (state56.pcb 100).forbid_cnt := by
  obtain ⟨s1, h⟩ := Option.isSome_iff_exists.1
    (show (run_sched cfgHeap roundOfYields state56).isSome = true by decide)
  exact ⟨s1, h, (gate_counter_frame cfgHeap state56).2.2.2.2 100 roundOfYields s1 h (by decide)⟩

/-! ## The stack left by the default size -/

/-- The words reserved for the PCB are `sizeof(Process) / W`, or one more. -/
theorem PROC_SIZE_WORDS_bounds (cfg : Config) (hW : 0 < cfg.sizeof_cpustack_t) :
    PROC_SIZE_WORDS cfg ≤ cfg.sizeof_Process / cfg.sizeof_cpustack_t + 1 ∧
    (cfg.sizeof_cpustack_t ∣ cfg.sizeof_Process →
      PROC_SIZE_WORDS cfg = cfg.sizeof_Process / cfg.sizeof_cpustack_t) := by
  rw [PROC_SIZE_WORDS_eq cfg hW]
  constructor
  · calc (cfg.sizeof_Process + (cfg.sizeof_cpustack_t - 1)) / cfg.sizeof_cpustack_t
        ≤ (cfg.sizeof_Process + cfg.sizeof_cpustack_t) / cfg.sizeof_cpustack_t :=
          Nat.div_le_div_right (by omega)
      _ = cfg.sizeof_Process / cfg.sizeof_cpustack_t + 1 := Nat.add_div_right _ hW
  · intro hdvd
    rw [Nat.add_div_of_dvd_right hdvd, Nat.div_eq_of_lt (by omega : cfg.sizeof_cpustack_t - 1
      < cfg.sizeof_cpustack_t)]
    rfl

/-- **C20**, as amended (usable default stack; dynamic-heap build, stack
growing downward).  Let `W = sizeof(cpustack_t) > 0` divide
`CONFIG_PROC_DEFSTACKSIZE`.  A process created with `stack_size = 0` and no
buffer gets a buffer of `CONFIG_PROC_DEFSTACKSIZE + sizeof(Process)` bytes
(the sum fitting a `size_t`).  When `W` also divides `sizeof(Process)`, the
region left for the stack below the PCB,
`(stack_size / W - PROC_SIZE_WORDS) * W`, is exactly
`CONFIG_PROC_DEFSTACKSIZE` bytes, and it is the distance from the start of the
buffer to the PCB; for any `sizeof(Process)` it falls short of
`CONFIG_PROC_DEFSTACKSIZE` by at most one word. -/
theorem default_stack_region (cfg : Config) (heap_alloc : Nat → Int) (entry data : Nat)
    (s : State) (hemul : cfg.ARCH_EMUL = false) (hheap : cfg.CONFIG_KERN_HEAP = true)
    (hdown : cfg.CPU_STACK_GROWS_UPWARD = false)
    (hW : 0 < cfg.sizeof_cpustack_t)
    (hdef : cfg.sizeof_cpustack_t ∣ cfg.CONFIG_PROC_DEFSTACKSIZE)
    (hfit : cfg.CONFIG_PROC_DEFSTACKSIZE + cfg.sizeof_Process < 2 ^ cfg.SIZE_T_BITS)
    (hok : heap_alloc (cfg.CONFIG_PROC_DEFSTACKSIZE + cfg.sizeof_Process) ≠ 0) :
    ((proc_new_with_name cfg heap_alloc entry data 0 0 s).2.pcb
        (proc_new_with_name cfg heap_alloc entry data 0 0 s).1).stack_size =
      cfg.CONFIG_PROC_DEFSTACKSIZE + cfg.sizeof_Process ∧
    cfg.CONFIG_PROC_DEFSTACKSIZE ≤
      (((proc_new_with_name cfg heap_alloc entry data 0 0 s).2.pcb
          (proc_new_with_name cfg heap_alloc entry data 0 0 s).1).stack_size
          / cfg.sizeof_cpustack_t - PROC_SIZE_WORDS cfg) * cfg.sizeof_cpustack_t
        + cfg.sizeof_cpustack_t ∧
    (cfg.sizeof_cpustack_t ∣ cfg.sizeof_Process →
      (((proc_new_with_name cfg heap_alloc entry data 0 0 s).2.pcb
          (proc_new_with_name cfg heap_alloc entry data 0 0 s).1).stack_size
          / cfg.sizeof_cpustack_t - PROC_SIZE_WORDS cfg) * cfg.sizeof_cpustack_t
        = cfg.CONFIG_PROC_DEFSTACKSIZE ∧
      (proc_new_with_name cfg heap_alloc entry data 0 0 s).1
        - ((proc_new_with_name cfg heap_alloc entry data 0 0 s).2.pcb
            (proc_new_with_name cfg heap_alloc entry data 0 0 s).1).stack_base
        = (cfg.CONFIG_PROC_DEFSTACKSIZE : Int)) := by
  have hsize : (if (0 : Nat) = 0 then
      (cfg.CONFIG_PROC_DEFSTACKSIZE + cfg.sizeof_Process) % 2 ^ cfg.SIZE_T_BITS else 0) =
      cfg.CONFIG_PROC_DEFSTACKSIZE + cfg.sizeof_Process := by
    simp [Nat.mod_eq_of_lt hfit]
  have hrun := proc_new_heap_ok cfg heap_alloc entry data 0 s hemul hheap (by rw [hsize]; exact hok)
  rw [hsize] at hrun
  obtain ⟨st, hpcb⟩ := proc_new_setup_pcb cfg true entry data
    (cfg.CONFIG_PROC_DEFSTACKSIZE + cfg.sizeof_Process)
    (heap_alloc (cfg.CONFIG_PROC_DEFSTACKSIZE + cfg.sizeof_Process))
    (s.emit (Event.heap_alloc (cfg.CONFIG_PROC_DEFSTACKSIZE + cfg.sizeof_Process)
      (heap_alloc (cfg.CONFIG_PROC_DEFSTACKSIZE + cfg.sizeof_Process))))
  have hfst := proc_new_setup_fst cfg true entry data
    (cfg.CONFIG_PROC_DEFSTACKSIZE + cfg.sizeof_Process)
    (heap_alloc (cfg.CONFIG_PROC_DEFSTACKSIZE + cfg.sizeof_Process))
    (s.emit (Event.heap_alloc (cfg.CONFIG_PROC_DEFSTACKSIZE + cfg.sizeof_Process)
      (heap_alloc (cfg.CONFIG_PROC_DEFSTACKSIZE + cfg.sizeof_Process))))
  rw [hdown] at hfst
  simp only [Bool.false_eq_true, if_false] at hfst
  have hss : ((proc_new_with_name cfg heap_alloc entry data 0 0 s).2.pcb
      (proc_new_with_name cfg heap_alloc entry data 0 0 s).1).stack_size =
      cfg.CONFIG_PROC_DEFSTACKSIZE + cfg.sizeof_Process := by
    rw [hrun, hpcb]; simp [hheap]
  have hsb : ((proc_new_with_name cfg heap_alloc entry data 0 0 s).2.pcb
      (proc_new_with_name cfg heap_alloc entry data 0 0 s).1).stack_base =
      heap_alloc (cfg.CONFIG_PROC_DEFSTACKSIZE + cfg.sizeof_Process) := by
    rw [hrun, hpcb]; simp [hheap]
  have hn : (cfg.CONFIG_PROC_DEFSTACKSIZE + cfg.sizeof_Process) / cfg.sizeof_cpustack_t =
      cfg.CONFIG_PROC_DEFSTACKSIZE / cfg.sizeof_cpustack_t
        + cfg.sizeof_Process / cfg.sizeof_cpustack_t := Nat.add_div_of_dvd_right hdef
  have hd : cfg.CONFIG_PROC_DEFSTACKSIZE / cfg.sizeof_cpustack_t * cfg.sizeof_cpustack_t =
      cfg.CONFIG_PROC_DEFSTACKSIZE := Nat.div_mul_cancel hdef
  obtain ⟨hPle, hPeq⟩ := PROC_SIZE_WORDS_bounds cfg hW
  refine ⟨hss, ?_, ?_⟩
  · rw [hss, hn]
    have h1 : cfg.CONFIG_PROC_DEFSTACKSIZE / cfg.sizeof_cpustack_t ≤
        cfg.CONFIG_PROC_DEFSTACKSIZE / cfg.sizeof_cpustack_t
          + cfg.sizeof_Process / cfg.sizeof_cpustack_t - PROC_SIZE_WORDS cfg + 1 := by omega
    have h2 := Nat.mul_le_mul_right cfg.sizeof_cpustack_t h1
    rw [hd, Nat.add_mul, Nat.one_mul] at h2
    exact h2
  · intro hdvd
    have hP := hPeq hdvd
    constructor
    · rw [hss, hn, hP, Nat.add_sub_cancel, hd]
    · rw [hsb, hrun, hfst, hn, hP]
      push_cast
      have hd2 : ((cfg.CONFIG_PROC_DEFSTACKSIZE / cfg.sizeof_cpustack_t : Nat) : Int)
          * (cfg.sizeof_cpustack_t : Int) = (cfg.CONFIG_PROC_DEFSTACKSIZE : Int) := by
        exact_mod_cast hd
      push_cast at hd2
      linarith

/-- Instance of the default stack in the build `cfgHeap`: the region below the
PCB is 64 bytes. -/
theorem default_stack_region_witness :
    (((proc_new_with_name cfgHeap alloc1000 1 2 0 0 state0).2.pcb
        (proc_new_with_name cfgHeap alloc1000 1 2 0 0 state0).1).stack_size
        / cfgHeap.sizeof_cpustack_t - PROC_SIZE_WORDS cfgHeap) * cfgHeap.sizeof_cpustack_t
      = cfgHeap.CONFIG_PROC_DEFSTACKSIZE :=
  ((default_stack_region cfgHeap alloc1000 1 2 state0 rfl rfl rfl (by decide) (by decide)
    (by decide) (by decide)).2.2 (by decide)).1

/-- **C20**, as stated, fails on the code: in the build `cfgOdd`
(`W = 4` divides `CONFIG_PROC_DEFSTACKSIZE = 64`, `sizeof(Process) = 18`) the
default buffer has 82 bytes, the PCB takes 5 words at `1060` in the buffer at
`1000`, and the region left for the stack below it is 60 bytes. -/
theorem default_stack_region_short :
    cfgOdd.sizeof_cpustack_t ∣ cfgOdd.CONFIG_PROC_DEFSTACKSIZE ∧
    ((proc_new_with_name cfgOdd alloc1000 1 2 0 0 state0).2.pcb
        (proc_new_with_name cfgOdd alloc1000 1 2 0 0 state0).1).stack_size = 82 ∧
    (proc_new_with_name cfgOdd alloc1000 1 2 0 0 state0).1 = 1060 ∧
    ¬ ((((proc_new_with_name cfgOdd alloc1000 1 2 0 0 state0).2.pcb
          (proc_new_with_name cfgOdd alloc1000 1 2 0 0 state0).1).stack_size
          / cfgOdd.sizeof_cpustack_t - PROC_SIZE_WORDS cfgOdd) * cfgOdd.sizeof_cpustack_t
        ≥ cfgOdd.CONFIG_PROC_DEFSTACKSIZE) := by
  decide

end Bertos
